import Mathlib

/-! # gosock: request routing (handler.go) and the XHR transports (xhr.go)

A shallow embedding of `src/handler.go` and `src/xhr.go`.

Conventions of the embedding.

* A Go `string` that carries text (URL path, method, prefix, transport name) is a
  `List Char`, the characters of its UTF-8 text; every pattern and literal of the two
  files is ASCII.  `len` and slice expressions count the bytes of the encoding.
* A Go `[]byte` is a `List Nat`, one entry per byte.
* `json.Decoder.Decode` is a parameter of `xhrSendHandler`; `jsonDecode` is what package
  encoding/json does for a target of type `[]string`.
* The five `regexp.MustCompile` patterns of handler.go all have the shape `^ body $`
  (no flags), so a compiled pattern is represented by the expression between the two
  anchors and is matched against the whole text.  The matcher is a backtracking
  matcher that lists the ways an expression can consume a prefix of the input in
  priority order (leftmost alternative first, greedy repetition), which is the
  leftmost-first rule of Go's `regexp` package.
* Code that the two files call but do not define (`sid`, `xhrCors`, `noCache`,
  `logWriteErr`, `legacyHandler`, ...) is recorded as a call, in call order.
-/

namespace Gosock

/-- A Go string holding text. -/
abbrev Str := List Char

/-- A Go byte slice. -/
abbrev Bytes := List Nat

/-! ## Regular expressions -/

/-- Syntax of the regular expressions that occur in handler.go. -/
inductive Regex where
  | empty : Regex
  | char : Char → Regex
  | cls : (Char → Bool) → Regex
  | seq : Regex → Regex → Regex
  | alt : Regex → Regex → Regex
  | opt : Regex → Regex
  | star : Regex → Regex
  | plus : Regex → Regex
  | group : Nat → Regex → Regex

/-- Submatch store: `(i, text)` records that group `i` captured `text`; the most
recent entry is first. -/
abbrev Caps := List (Nat × Str)

/-- One way of matching a prefix: the unconsumed rest of the input and the captures. -/
abbrev Thread := Str × Caps

/-- Greedy iteration of `step`.  An iteration has to consume input, so the length of
the input bounds the number of iterations; `fuel` is that bound. -/
def starLoop (step : Str → Caps → List Thread) : Nat → Str → Caps → List Thread
  | 0, s, k => [(s, k)]
  | fuel + 1, s, k =>
    ((step s k).filter (fun r => decide (r.1.length < s.length))).flatMap
      (fun r => starLoop step fuel r.1 r.2) ++ [(s, k)]

/-- All the ways `r` matches a prefix of `s`, best first. -/
def Regex.run : Regex → Str → Caps → List Thread
  | .empty, s, k => [(s, k)]
  | .char c, s, k =>
    match s with
    | [] => []
    | x :: xs => if x = c then [(xs, k)] else []
  | .cls p, s, k =>
    match s with
    | [] => []
    | x :: xs => if p x then [(xs, k)] else []
  | .seq a b, s, k => (a.run s k).flatMap (fun r => b.run r.1 r.2)
  | .alt a b, s, k => a.run s k ++ b.run s k
  | .opt a, s, k => a.run s k ++ [(s, k)]
  | .star a, s, k => starLoop (fun s1 k1 => a.run s1 k1) s.length s k
  | .plus a, s, k =>
    (a.run s k).flatMap (fun r => starLoop (fun s1 k1 => a.run s1 k1) r.1.length r.1 r.2)
  | .group i a, s, k =>
    (a.run s k).map (fun r => (r.1, (i, s.take (s.length - r.1.length)) :: r.2))

/-- The expression matching exactly the literal text `t`. -/
def Regex.lit : Str → Regex
  | [] => .empty
  | c :: cs => .seq (.char c) (Regex.lit cs)

/-- Text captured by group `i` (the empty string when the group did not take part). -/
def capture (k : Caps) (i : Nat) : Str :=
  match k.find? (fun e => e.1 == i) with
  | some e => e.2
  | none => []

/-- A compiled pattern `^ body $` with `numSubexp` capturing groups. -/
structure Regexp where
  body : Regex
  numSubexp : Nat

/-- The first (highest-priority) way of matching the whole text. -/
def Regexp.firstMatch (re : Regexp) (s : Str) : Option Thread :=
  (re.body.run s []).find? (fun r => r.1.isEmpty)

/-- Method `Regexp.MatchString`: does the pattern match the text. -/
def Regexp.MatchString (re : Regexp) (s : Str) : Bool :=
  (re.firstMatch s).isSome

/-- Method `Regexp.FindStringSubmatch`: `none` is Go's `nil`; otherwise entry 0 is the whole
match and entry `i` the text of group `i`. -/
def Regexp.FindStringSubmatch (re : Regexp) (s : Str) : Option (List Str) :=
  match re.firstMatch s with
  | none => none
  | some r => some (s :: (List.range re.numSubexp).map (fun i => capture r.2 (i + 1)))

/-- Perl class `\w`: `[0-9A-Za-z_]`. -/
def isWord (c : Char) : Bool :=
  let n := c.toNat
  (48 ≤ n && n ≤ 57) || (65 ≤ n && n ≤ 90) || n == 95 || (97 ≤ n && n ≤ 122)

/-- Perl class `\d`: `[0-9]`. -/
def isDigit (c : Char) : Bool :=
  let n := c.toNat
  48 ≤ n && n ≤ 57

/-- The class `[\w- ]`: a word character, `-` or a blank. -/
def clsSeg (c : Char) : Bool :=
  isWord c || c == '-' || c == ' '

/-- The class `[\w\d-\. ]`: a word character, a digit, `-`, `.` or a blank. -/
def clsIframe (c : Char) : Bool :=
  isWord c || isDigit c || c == '-' || c == '.' || c == ' '

/-! ## handler.go -/

/-- Pattern `^/?$`. -/
def reGreeting : Regexp :=
  { body := .opt (.char '/'), numSubexp := 0 }

/-- Pattern `^/info$`. -/
def reInfo : Regexp :=
  { body := Regex.lit "/info".toList, numSubexp := 0 }

/-- Pattern `^/iframe[\w\d-\. ]*\.html$`. -/
def reIframe : Regexp :=
  { body := .seq (Regex.lit "/iframe".toList)
      (.seq (.star (.cls clsIframe)) (Regex.lit ".html".toList)),
    numSubexp := 0 }

/-- The alternation `xhr|xhr_send|xhr_streaming|eventsource|htmlfile|websocket|jsonp|jsonp_send`. -/
def transportAlt : Regex :=
  .alt (Regex.lit "xhr".toList)
    (.alt (Regex.lit "xhr_send".toList)
      (.alt (Regex.lit "xhr_streaming".toList)
        (.alt (Regex.lit "eventsource".toList)
          (.alt (Regex.lit "htmlfile".toList)
            (.alt (Regex.lit "websocket".toList)
              (.alt (Regex.lit "jsonp".toList) (Regex.lit "jsonp_send".toList)))))))

/-- Pattern
`^/(?:[\w- ]+)/([\w- ]+)/(xhr|xhr_send|xhr_streaming|eventsource|htmlfile|websocket|jsonp|jsonp_send)$`. -/
def reSessionUrl : Regexp :=
  { body := .seq (.char '/')
      (.seq (.plus (.cls clsSeg))
        (.seq (.char '/')
          (.seq (.group 1 (.plus (.cls clsSeg)))
            (.seq (.char '/') (.group 2 transportAlt))))),
    numSubexp := 2 }

/-- Pattern `^/websocket$`. -/
def reRawWebsocket : Regexp :=
  { body := Regex.lit "/websocket".toList, numSubexp := 0 }

/-! ## Collaborators -/

/-- Constant `http.StatusNoContent`. -/
def StatusNoContent : Nat := 204

/-- Go `error` values of `Decoder.Decode` as far as `xhrSendHandler` tells them apart:
`io.EOF` and any other error. -/
inductive DecodeError where
  | EOF
  | other
  deriving DecidableEq, Repr

/-- The part of `*http.Request` the two files read. -/
structure Request where
  Method : Str
  Path : Str
  Body : Bytes

/-- An `io.Writer`: `written` lists the arguments of the `Write` calls made so far and
`respond` gives the `(n, err)` a call returns, from the history and the argument. -/
structure Writer where
  written : List Bytes
  respond : List Bytes → Bytes → Int × Option Str

/-- Method `Write` of an `io.Writer`: one call. -/
def Writer.Write (w : Writer) (b : Bytes) : Writer × (Int × Option Str) :=
  ({ w with written := w.written ++ [b] }, w.respond w.written b)

/-- Conversion `[]byte(v)` of a Go string: its UTF-8 bytes. -/
def toBytes (v : Str) : Bytes :=
  v.flatMap (fun c => (String.utf8EncodeChar c).map (fun b => b.toNat))

/-- Built-in `len` of a Go string: the number of its bytes. -/
def len (s : Str) : Nat :=
  (toBytes s).length

/-- Slice expression `s[n:]` of a Go string; `n` counts bytes, and `none` is the run-time
panic for `n > len(s)`.  When `n` falls inside the encoding of a character, the bytes
that are left of that character are not text: package `regexp`, the only reader of the
slice in the two files, reads each of them as U+FFFD, and that is how they are kept. -/
def sliceFrom : Str → Nat → Option Str
  | s, 0 => some s
  | [], _ + 1 => none
  | c :: cs, n + 1 =>
    if len [c] ≤ n + 1 then sliceFrom cs (n + 1 - len [c])
    else some (List.replicate (len [c] - (n + 1)) (Char.ofNat 0xFFFD) ++ cs)

/-- Modelled from the spec: the lifecycle state of a session (not in the two files),
"one of `Connecting, Open, Closing, Closed`". -/
inductive sessionState where
  | Connecting
  | Open
  | Closing
  | Closed
  deriving DecidableEq, Repr

/-- Modelled from the spec: the type `session` (not in the two files), reduced to its
lifecycle `state` and its inbound queue, "ordered sequence of payloads received from the
client but not yet delivered to the application handler". -/
structure session where
  state : sessionState
  rbuf : List Bytes
  deriving DecidableEq, Repr

/-- Modelled from the spec: method `session.rbufAppend` (not in the two files);
inbound payloads are appended "to inboundQueue in order", and "once `state = Closed`, no
further inbound or outbound payload is accepted".  `xhrSendHandler` calls the method as a
statement, so a refusal leaves the session as it was and tells the caller nothing. -/
def session.rbufAppend (s : session) (b : Bytes) : session :=
  if s.state = .Closed then s else { s with rbuf := s.rbuf ++ [b] }

/-- Modelled from the spec: the type `legacyPool` (not in the two files), the
"mapping id → Session". -/
structure legacyPool where
  pool : Str → Option session

/-- Modelled from the spec: function `newLegacyPool` (not in the two files); a new
registry holds no session. -/
def newLegacyPool : legacyPool :=
  { pool := fun _ => none }

/-- Modelled from the spec: method `legacyPool.get` (not in the two files); "if id
exists, returns it", and for a request that is not a connecting request nothing is
created. `none` is Go's `nil`. -/
def legacyPool.get (p : legacyPool) (sessid : Str) : Option session :=
  p.pool sessid

/-- Effect of a method with pointer receiver on the session stored under `sessid`. -/
def legacyPool.store (p : legacyPool) (sessid : Str) (s : session) : legacyPool :=
  { pool := fun i => if i = sessid then some s else p.pool i }

/-! ## Package encoding/json: `Decode` into a slice of strings

`xhrSendHandler` runs `json.NewDecoder(r.Body).Decode(&messages)` with `messages` a nil
`[]string`.  The decoder scans the first JSON value of the body and stores it:
`null` leaves the slice nil; an array gives one string per element, where a `null`
element leaves the empty string and an element of any other kind is an error; whatever
follows the value is left unread. -/

/-- Function `isSpace` of encoding/json: blank, tab, carriage return, line feed. -/
def isSpace (c : Nat) : Bool :=
  c == 32 || c == 9 || c == 13 || c == 10

/-- Hexadecimal digit, as tested by the scanner after `\u`. -/
def isHex (c : Nat) : Bool :=
  (48 ≤ c && c ≤ 57) || (97 ≤ c && c ≤ 102) || (65 ≤ c && c ≤ 70)

/-- Value of a hexadecimal digit, as in `getu4`. -/
def hexVal (c : Nat) : Nat :=
  if 48 ≤ c && c ≤ 57 then c - 48
  else if 97 ≤ c && c ≤ 102 then c - 97 + 10
  else c - 65 + 10

/-- State of the scan of a body.  `items` are the array elements read so far, `some raw`
for a string literal with the bytes `raw` between its quotes and `none` for `null`; `k`
counts the letters of `null`, or the hexadecimal digits after `\u`, read so far; `rest`
are the bytes after the value, which `Decode` does not look at. -/
inductive Scan where
  | beginTop
  | topNull (k : Nat)
  | beginValueOrEmpty
  | beginValue (items : List (Option Bytes))
  | inString (items : List (Option Bytes)) (raw : Bytes)
  | inStringEsc (items : List (Option Bytes)) (raw : Bytes)
  | inStringEscU (items : List (Option Bytes)) (raw : Bytes) (k : Nat)
  | elemNull (items : List (Option Bytes)) (k : Nat)
  | endValue (items : List (Option Bytes))
  | doneNull (rest : Bytes)
  | done (items : List (Option Bytes)) (rest : Bytes)
  | fail
  deriving DecidableEq, Repr

/-- Scanner state `stateBeginValue` inside an array.  Only a string and `null` can be
stored in a string element: any other first byte ends in an error, be it a syntax
error, an unexpected end of input or a type error. -/
def beginValue (items : List (Option Bytes)) (c : Nat) : Scan :=
  if isSpace c then .beginValue items
  else if c = 34 then .inString items []
  else if c = 110 then .elemNull items 1
  else .fail

/-- One byte of the scan.  At top level only `null` and an array can be stored in a
slice: any other first byte ends in an error. -/
def scanStep : Scan → Nat → Scan
  | .beginTop, c =>
    if isSpace c then .beginTop
    else if c = 91 then .beginValueOrEmpty
    else if c = 110 then .topNull 1
    else .fail
  | .topNull k, c =>
    if k = 1 ∧ c = 117 then .topNull 2
    else if k = 2 ∧ c = 108 then .topNull 3
    else if k = 3 ∧ c = 108 then .doneNull []
    else .fail
  | .beginValueOrEmpty, c =>
    if isSpace c then .beginValueOrEmpty
    else if c = 93 then .done [] []
    else beginValue [] c
  | .beginValue items, c => beginValue items c
  | .inString items raw, c =>
    if c = 34 then .endValue (items ++ [some raw])
    else if c = 92 then .inStringEsc items (raw ++ [c])
    else if c < 32 then .fail
    else .inString items (raw ++ [c])
  | .inStringEsc items raw, c =>
    if c = 98 ∨ c = 102 ∨ c = 110 ∨ c = 114 ∨ c = 116 ∨ c = 92 ∨ c = 47 ∨ c = 34 then
      .inString items (raw ++ [c])
    else if c = 117 then .inStringEscU items (raw ++ [c]) 0
    else .fail
  | .inStringEscU items raw k, c =>
    if isHex c then
      if k < 3 then .inStringEscU items (raw ++ [c]) (k + 1) else .inString items (raw ++ [c])
    else .fail
  | .elemNull items k, c =>
    if k = 1 ∧ c = 117 then .elemNull items 2
    else if k = 2 ∧ c = 108 then .elemNull items 3
    else if k = 3 ∧ c = 108 then .endValue (items ++ [none])
    else .fail
  | .endValue items, c =>
    if isSpace c then .endValue items
    else if c = 44 then .beginValue items
    else if c = 93 then .done items []
    else .fail
  | .doneNull rest, c => .doneNull (rest ++ [c])
  | .done items rest, c => .done items (rest ++ [c])
  | .fail, _ => .fail

/-- Constant `unicode.ReplacementChar`, U+FFFD. -/
def replacementChar : Char :=
  Char.ofNat 0xFFFD

/-- A UTF-8 continuation byte, `0x80` to `0xBF`. -/
def isCont (b : Nat) : Bool :=
  128 ≤ b && b ≤ 191

/-- The byte that the one-letter escape `e` stands for. -/
def escByte (e : Nat) : Nat :=
  if e = 98 then 8 else if e = 102 then 12 else if e = 110 then 10 else if e = 114 then 13
  else if e = 116 then 9 else e

/-- Function `unquoteBytes` on the bytes between the quotes of a literal that the scan
has accepted: escapes are resolved, a pair of surrogate escapes gives one character, a
surrogate escape without its partner gives U+FFFD, and every byte that does not start a
well-formed UTF-8 sequence (`utf8.DecodeRune`) gives U+FFFD. -/
def unquote : Bytes → Str
  | [] => []
  | c :: rest =>
    let skip := unquote rest
    if c = 92 then
      match rest with
      | [] => []
      | e :: rest1 =>
        if e = 117 then
          match rest1 with
          | a :: b :: c2 :: d :: rest2 =>
            let rr := ((hexVal a * 16 + hexVal b) * 16 + hexVal c2) * 16 + hexVal d
            let next := unquote rest2
            if 0xD800 ≤ rr ∧ rr < 0xE000 then
              match rest2 with
              | b0 :: u0 :: a1 :: b1 :: c1 :: d1 :: rest3 =>
                let rr1 := ((hexVal a1 * 16 + hexVal b1) * 16 + hexVal c1) * 16 + hexVal d1
                if b0 = 92 ∧ u0 = 117 ∧ isHex a1 ∧ isHex b1 ∧ isHex c1 ∧ isHex d1 ∧
                    rr < 0xDC00 ∧ 0xDC00 ≤ rr1 ∧ rr1 < 0xE000 then
                  Char.ofNat ((rr - 0xD800) * 1024 + (rr1 - 0xDC00) + 0x10000) :: unquote rest3
                else replacementChar :: next
              | _ => replacementChar :: next
            else Char.ofNat rr :: next
          | _ => []
        else Char.ofNat (escByte e) :: unquote rest1
    else if c < 128 then Char.ofNat c :: skip
    else if 0xC2 ≤ c ∧ c ≤ 0xDF then
      match rest with
      | b1 :: rest1 =>
        if isCont b1 then Char.ofNat ((c - 0xC0) * 64 + (b1 - 128)) :: unquote rest1
        else replacementChar :: skip
      | [] => replacementChar :: skip
    else if 0xE0 ≤ c ∧ c ≤ 0xEF then
      match rest with
      | b1 :: b2 :: rest2 =>
        if (if c = 0xE0 then 0xA0 else 0x80) ≤ b1 ∧ b1 ≤ (if c = 0xED then 0x9F else 0xBF) ∧
            isCont b2 then
          Char.ofNat (((c - 0xE0) * 64 + (b1 - 128)) * 64 + (b2 - 128)) :: unquote rest2
        else replacementChar :: skip
      | _ => replacementChar :: skip
    else if 0xF0 ≤ c ∧ c ≤ 0xF4 then
      match rest with
      | b1 :: b2 :: b3 :: rest3 =>
        if (if c = 0xF0 then 0x90 else 0x80) ≤ b1 ∧ b1 ≤ (if c = 0xF4 then 0x8F else 0xBF) ∧
            isCont b2 ∧ isCont b3 then
          Char.ofNat ((((c - 0xF0) * 64 + (b1 - 128)) * 64 + (b2 - 128)) * 64 + (b3 - 128))
            :: unquote rest3
        else replacementChar :: skip
      | _ => replacementChar :: skip
    else replacementChar :: skip

/-- The call `json.NewDecoder(r.Body).Decode(&messages)` on a body: `io.EOF` when the
body holds nothing but blanks, the strings stored in `messages` when the first value is
`null` or an array of strings and `null`s, and another error in every other case. -/
def jsonDecode (body : Bytes) : Except DecodeError (List Str) :=
  match body.foldl scanStep .beginTop with
  | .beginTop => .error .EOF
  | .doneNull _ => .ok []
  | .done items _ =>
    .ok (items.map (fun item =>
      match item with
      | some raw => unquote raw
      | none => []))
  | _ => .error .other

/-- The claim's "well-formed JSON array of strings": the body is one JSON value, that
value is an array, each of its elements is a string, and only blanks follow it. -/
def isStringArray (body : Bytes) : Bool :=
  match body.foldl scanStep .beginTop with
  | .done items rest => items.all (fun item => item.isSome) && rest.all isSpace
  | _ => false

/-! ## xhr.go -/

/-- Type `xhrPollingProtocol struct{}`. -/
structure xhrPollingProtocol where
  deriving DecidableEq, Repr

/-- Type `xhrStreamingProtocol struct{ xhrPollingProtocol }`. -/
structure xhrStreamingProtocol where
  xhrPollingProtocol : xhrPollingProtocol
  deriving DecidableEq, Repr

/-- Interface `preludeWriter`; in the two files only `xhrStreamingProtocol` is
converted to it. -/
inductive preludeWriter where
  | ofXhrStreaming (p : xhrStreamingProtocol)
  deriving DecidableEq, Repr

/-- Method `xhrPollingProtocol.contentType`. -/
def xhrPollingProtocol.contentType (_p : xhrPollingProtocol) : Str :=
  "application/javascript; charset=UTF-8".toList

/-- Method `xhrPollingProtocol.write`: `w.Write(append(m, 0x0A))`. -/
def xhrPollingProtocol.write (_p : xhrPollingProtocol) (w : Writer) (m : Bytes) :
    Writer × (Int × Option Str) :=
  w.Write (m ++ [10])

/-- Method `xhrPollingProtocol.streaming`: returns `nil`. -/
def xhrPollingProtocol.streaming (_p : xhrPollingProtocol) : Option preludeWriter :=
  none

/-- Statement `make([]byte, 2049)`. -/
def preludeMake : Bytes :=
  List.replicate 2049 0

/-- Function `init`: the loop `for i := 0; i < 2048; i++` storing the byte of `h`
(104), then the store of a newline (10) at index 2048. -/
def init (prelude : Bytes) : Bytes :=
  ((List.range 2048).foldl (fun p i => p.set i 104) prelude).set 2048 10

/-- Variable `prelude` after package initialisation. -/
def prelude : Bytes :=
  init preludeMake

/-- Method `contentType`, promoted from the embedded `xhrPollingProtocol`. -/
def xhrStreamingProtocol.contentType (p : xhrStreamingProtocol) : Str :=
  p.xhrPollingProtocol.contentType

/-- Method `write`, promoted from the embedded `xhrPollingProtocol`. -/
def xhrStreamingProtocol.write (p : xhrStreamingProtocol) (w : Writer) (m : Bytes) :
    Writer × (Int × Option Str) :=
  p.xhrPollingProtocol.write w m

/-- Method `xhrStreamingProtocol.writePrelude`: `_, err = w.Write(prelude)`. -/
def xhrStreamingProtocol.writePrelude (_p : xhrStreamingProtocol) (w : Writer) :
    Writer × Option Str :=
  let r := w.Write prelude
  (r.1, r.2.2)

/-- Method `xhrStreamingProtocol.streaming`: returns `p`. -/
def xhrStreamingProtocol.streaming (p : xhrStreamingProtocol) : Option preludeWriter :=
  some (.ofXhrStreaming p)

/-- Method `writePrelude` called through the interface. -/
def preludeWriter.writePrelude : preludeWriter → Writer → Writer × Option Str
  | .ofXhrStreaming p, w => p.writePrelude w

/-- The protocol value passed as last argument of `legacyHandler`: one of
`eventSourceProtocol{}` (a type the two files do not define), `xhrPollingProtocol{}`
and `xhrStreamingProtocol{}`. -/
inductive legacyProtocol where
  | eventSourceProtocol
  | xhrPollingProtocol (p : xhrPollingProtocol)
  | xhrStreamingProtocol (p : xhrStreamingProtocol)
  deriving DecidableEq, Repr

/-- One call made on a collaborator of the two files, in the order the code makes it.
The first group are calls on the response writer, its header and the request body; the
second group are the handlers `ServeHTTP` dispatches to that the two files do not define. -/
inductive Call where
  | headerAdd (key value : Str)
  | sid
  | xhrCors
  | noCache
  | enableCache
  | Decode
  | logWriteErr (m : Str)
  | WriteHeader (code : Nat)
  | NotFound
  | greetingHandler
  | iframeHandler
  | infoOptionsHandler
  | infoHandler
  | rawWebsocketHandler
  | websocketHandler (sessid : Str)
  | htmlfileHandler (sessid : Str)
  | jsonpHandler (sessid : Str)
  | websocketPostHandler
  | jsonpSendHandler (sessid : Str)
  | legacyHandler (sessid : Str) (p : legacyProtocol)
  deriving DecidableEq, Repr

/-! ## handler.go: the handler -/

/-- Type `handler`; `H` is the type of the session callback and `C` the type `Config`,
neither of which the two files define. -/
structure handler (H C : Type) where
  pfx : Str
  hfunc : H
  config : C
  pool : legacyPool

/-- Function `newHandler`. The callback is stored as given: its wrapper
`hfuncCloseWrapper` is not defined in the two files. -/
def newHandler {H C : Type} (pfx : Str) (hfunc : H) (c : C) : handler H C :=
  { pfx := pfx, hfunc := hfunc, config := c, pool := newLegacyPool }

/-- Function `xhrSendHandler` of xhr.go. `decode` is `json.Decoder.Decode` into a
`[]string`, applied to the request body. The result is the handler afterwards (its pool
holds the sessions) and the calls made, in order. -/
def xhrSendHandler {H C : Type} (decode : Bytes → Except DecodeError (List Str))
    (h : handler H C) (r : Request) (sessid : Str) : handler H C × List Call :=
  let calls : List Call :=
    [.headerAdd "Content-Type".toList "text/plain; charset=UTF-8".toList, .sid, .xhrCors,
      .noCache]
  match h.pool.get sessid with
  | none => (h, calls ++ [.NotFound])
  | some s =>
    match decode r.Body with
    | .error .EOF => (h, calls ++ [.Decode, .logWriteErr "Payload expected.".toList])
    | .error .other => (h, calls ++ [.Decode, .logWriteErr "Broken JSON encoding.".toList])
    | .ok messages =>
      let s1 := messages.foldl (fun s0 v => s0.rbufAppend (toBytes v)) s
      ({ h with pool := h.pool.store sessid s1 },
        calls ++ [.Decode, .WriteHeader StatusNoContent])

/-- Function `xhrOptionsHandler` of xhr.go. -/
def xhrOptionsHandler : List Call :=
  [.headerAdd "Access-Control-Allow-Methods".toList "OPTIONS, POST".toList, .sid, .xhrCors,
    .enableCache, .WriteHeader StatusNoContent]

/-- The inner `switch protocol` of the GET case of `ServeHTTP`; it has no default. -/
def getSwitch (sessid protocol : Str) : List Call :=
  if protocol = "websocket".toList then [.websocketHandler sessid]
  else if protocol = "eventsource".toList then [.legacyHandler sessid .eventSourceProtocol]
  else if protocol = "htmlfile".toList then [.htmlfileHandler sessid]
  else if protocol = "jsonp".toList then [.jsonpHandler sessid]
  else []

/-- The inner `switch protocol` of the POST case of `ServeHTTP`; it has no default. -/
def postSwitch {H C : Type} (decode : Bytes → Except DecodeError (List Str))
    (h : handler H C) (r : Request) (sessid protocol : Str) : handler H C × List Call :=
  if protocol = "websocket".toList then (h, [.websocketPostHandler])
  else if protocol = "xhr".toList then
    (h, [.xhrCors, .legacyHandler sessid (.xhrPollingProtocol {})])
  else if protocol = "xhr_streaming".toList then
    (h, [.xhrCors, .legacyHandler sessid (.xhrStreamingProtocol { xhrPollingProtocol := {} })])
  else if protocol = "xhr_send".toList then
    let res := xhrSendHandler decode h r sessid
    (res.1, .xhrCors :: res.2)
  else if protocol = "jsonp_send".toList then (h, [.jsonpSendHandler sessid])
  else (h, [])

/-- Entry `i` of the slice returned by `FindStringSubmatch`. -/
def submatch (ms : Option (List Str)) (i : Nat) : Str :=
  (ms.getD []).getD i []

/-- Method `handler.ServeHTTP`. `none` is the run-time panic of the slice expression
`r.URL.Path[len(h.prefix):]` when the path has fewer bytes than the prefix; otherwise the
result is the handler afterwards and the calls made, in order. -/
def handler.ServeHTTP {H C : Type} (decode : Bytes → Except DecodeError (List Str))
    (h : handler H C) (r : Request) : Option (handler H C × List Call) :=
  match sliceFrom r.Path (len h.pfx) with
  | none => none
  | some path =>
    let method := r.Method
    some (
      if method = "GET".toList && reGreeting.MatchString path then (h, [.greetingHandler])
      else if method = "GET".toList && reIframe.MatchString path then (h, [.iframeHandler])
      else if method = "OPTIONS".toList && reInfo.MatchString path then
        (h, [.infoOptionsHandler])
      else if method = "GET".toList && reInfo.MatchString path then (h, [.infoHandler])
      else if method = "GET".toList && reRawWebsocket.MatchString path then
        (h, [.rawWebsocketHandler])
      else if method = "GET".toList && reSessionUrl.MatchString path then
        let ms := reSessionUrl.FindStringSubmatch path
        (h, getSwitch (submatch ms 1) (submatch ms 2))
      else if method = "POST".toList && reSessionUrl.MatchString path then
        let ms := reSessionUrl.FindStringSubmatch path
        postSwitch decode h r (submatch ms 1) (submatch ms 2)
      else if method = "OPTIONS".toList && reSessionUrl.MatchString path then
        (h, xhrOptionsHandler)
      else (h, [.NotFound]))

/-- Function `NewHandler`. `.error` is the panic, with its message; `.ok h` is the handler
`h` that the returned `http.HandlerFunc` closes over. -/
def NewHandler {H C : Type} (pfx : Str) (hfunc : H) (c : C) : Except Str (handler H C) :=
  if pfx.length > 0 && pfx.getD (pfx.length - 1) ' ' = '/' then
    .error "prefix must not end with a slash".toList
  else
    .ok (newHandler pfx hfunc c)

/-- The closure `f` returned by `NewHandler`, for the handler `h` it closes over;
`pathMatch` is a function the two files do not define. -/
def NewHandler.f {H C : Type} (pathMatch : Str → Str → Bool)
    (decode : Bytes → Except DecodeError (List Str)) (h : handler H C) (r : Request) :
    Option (handler H C × List Call) :=
  if pathMatch h.pfx r.Path then h.ServeHTTP decode r else some (h, [.NotFound])

/-! ## Declarative reading of the patterns -/

/-- The language of a regular expression: `Matches r u` says that `r` matches exactly the
text `u`. Used to state what the matcher `Regex.run` accepts. -/
inductive Regex.Matches : Regex → Str → Prop where
  | empty : Regex.Matches .empty []
  | char (c : Char) : Regex.Matches (.char c) [c]
  | cls (p : Char → Bool) (x : Char) : p x = true → Regex.Matches (.cls p) [x]
  | seq {a b : Regex} {u v : Str} :
      Regex.Matches a u → Regex.Matches b v → Regex.Matches (.seq a b) (u ++ v)
  | altL {a b : Regex} {u : Str} : Regex.Matches a u → Regex.Matches (.alt a b) u
  | altR {a b : Regex} {u : Str} : Regex.Matches b u → Regex.Matches (.alt a b) u
  | optNone {a : Regex} : Regex.Matches (.opt a) []
  | optSome {a : Regex} {u : Str} : Regex.Matches a u → Regex.Matches (.opt a) u
  | starNil {a : Regex} : Regex.Matches (.star a) []
  | starCons {a : Regex} {u v : Str} :
      Regex.Matches a u → Regex.Matches (.star a) v → Regex.Matches (.star a) (u ++ v)
  | plus {a : Regex} {u v : Str} :
      Regex.Matches a u → Regex.Matches (.star a) v → Regex.Matches (.plus a) (u ++ v)
  | group {i : Nat} {a : Regex} {u : Str} : Regex.Matches a u → Regex.Matches (.group i a) u

/-- The eight transport names of the alternation in `reSessionUrl`, in pattern order. -/
def transportNames : List Str :=
  ["xhr".toList, "xhr_send".toList, "xhr_streaming".toList, "eventsource".toList,
    "htmlfile".toList, "websocket".toList, "jsonp".toList, "jsonp_send".toList]

/-- A path segment the class `[\w- ]+` accepts: non-empty, of word characters, `-` and
blanks only. -/
def isSegment (s : Str) : Prop :=
  s ≠ [] ∧ ∀ c ∈ s, clsSeg c = true

instance (s : Str) : Decidable (isSegment s) := by
  unfold isSegment
  exact inferInstance

/-- The text `/p/s/t`. -/
def sessionPath (p s t : Str) : Str :=
  '/' :: p ++ '/' :: s ++ '/' :: t

/-! ## The `switch` of `ServeHTTP` as a list of cases -/

/-- The eight cases of the `switch` in `ServeHTTP` that come before `default`. -/
inductive Route where
  | greeting
  | iframe
  | infoOptions
  | info
  | rawWebsocket
  | sessionGet
  | sessionPost
  | sessionOptions
  deriving DecidableEq, Repr

/-- The condition of a case of the `switch` in `ServeHTTP`. -/
def Route.guard : Route → Str → Str → Bool
  | .greeting, method, path => method = "GET".toList && reGreeting.MatchString path
  | .iframe, method, path => method = "GET".toList && reIframe.MatchString path
  | .infoOptions, method, path => method = "OPTIONS".toList && reInfo.MatchString path
  | .info, method, path => method = "GET".toList && reInfo.MatchString path
  | .rawWebsocket, method, path => method = "GET".toList && reRawWebsocket.MatchString path
  | .sessionGet, method, path => method = "GET".toList && reSessionUrl.MatchString path
  | .sessionPost, method, path => method = "POST".toList && reSessionUrl.MatchString path
  | .sessionOptions, method, path => method = "OPTIONS".toList && reSessionUrl.MatchString path

/-- The statements of a case of the `switch` in `ServeHTTP`. -/
def Route.body {H C : Type} (decode : Bytes → Except DecodeError (List Str))
    (h : handler H C) (r : Request) (path : Str) : Route → handler H C × List Call
  | .greeting => (h, [.greetingHandler])
  | .iframe => (h, [.iframeHandler])
  | .infoOptions => (h, [.infoOptionsHandler])
  | .info => (h, [.infoHandler])
  | .rawWebsocket => (h, [.rawWebsocketHandler])
  | .sessionGet =>
    let ms := reSessionUrl.FindStringSubmatch path
    (h, getSwitch (submatch ms 1) (submatch ms 2))
  | .sessionPost =>
    let ms := reSessionUrl.FindStringSubmatch path
    postSwitch decode h r (submatch ms 1) (submatch ms 2)
  | .sessionOptions => (h, xhrOptionsHandler)

/-- The cases in the order in which `ServeHTTP` lists them. -/
def serveCases : List Route :=
  [.greeting, .iframe, .infoOptions, .info, .rawWebsocket, .sessionGet, .sessionPost,
    .sessionOptions]

/-- A `switch` that lists the cases `cs` in that order and ends with the `default` of
`ServeHTTP`: the first case whose condition holds is run. -/
def switchOn {H C : Type} (decode : Bytes → Except DecodeError (List Str)) (cs : List Route)
    (h : handler H C) (r : Request) (method path : Str) : handler H C × List Call :=
  match cs.find? (fun c => c.guard method path) with
  | some c => c.body decode h r path
  | none => (h, [.NotFound])

/-- Method `ServeHTTP` with the cases of its `switch` listed in the order `cs`. -/
def ServeHTTPWith {H C : Type} (decode : Bytes → Except DecodeError (List Str))
    (cs : List Route) (h : handler H C) (r : Request) : Option (handler H C × List Call) :=
  match sliceFrom r.Path (len h.pfx) with
  | none => none
  | some path => some (switchOn decode cs h r r.Method path)

/-! ## Runs of requests -/

/-- The requests `rs` handled by `xhrSendHandler` one after another, all addressed to the
session `sessid`: the handler afterwards. -/
def xhrSendAll {H C : Type} (decode : Bytes → Except DecodeError (List Str))
    (h : handler H C) (rs : List Request) (sessid : Str) : handler H C :=
  rs.foldl (fun h0 r => (xhrSendHandler decode h0 r sessid).1) h

/-! ## Sample inputs -/

/-- A stand-in for `json.Decoder.Decode` on three kinds of body: the empty body is
`io.EOF`, the body `[1]` decodes to the strings `x` and `y`, any other body is broken. -/
def sampleDecode : Bytes → Except DecodeError (List Str)
  | [] => .error .EOF
  | [1] => .ok ["x".toList, "y".toList]
  | _ => .error .other

/-- A handler with prefix `/echo` whose pool holds one session, `abc`, open and with one
payload queued. -/
def sampleHandler : handler Unit Unit :=
  { pfx := "/echo".toList, hfunc := (), config := (),
    pool := newLegacyPool.store "abc".toList { state := .Open, rbuf := [[7]] } }

/-- A handler with prefix `/echo` whose pool holds one session, `abc`, that is `Closed`
and not yet removed, with one payload queued. -/
def sampleClosedHandler : handler Unit Unit :=
  { pfx := "/echo".toList, hfunc := (), config := (),
    pool := newLegacyPool.store "abc".toList { state := .Closed, rbuf := [[7]] } }

/-- A request with the given method, path and body. -/
def sampleRequest (method path : String) (body : Bytes) : Request :=
  { Method := method.toList, Path := path.toList, Body := body }

/-! ## Auxiliary facts -/

theorem rbufAppend_foldl (messages : List Str) (s : session) (hopen : s.state ≠ .Closed) :
    messages.foldl (fun s0 v => s0.rbufAppend (toBytes v)) s
      = { s with rbuf := s.rbuf ++ messages.map toBytes } := by
  induction messages generalizing s with
  | nil => simp
  | cons m ms ih =>
    simp only [List.foldl_cons, List.map_cons]
    have h1 : s.rbufAppend (toBytes m) = { s with rbuf := s.rbuf ++ [toBytes m] } := by
      simp [session.rbufAppend, hopen]
    rw [h1, ih { s with rbuf := s.rbuf ++ [toBytes m] } hopen]
    simp

theorem rbufAppend_foldl_closed (messages : List Str) (s : session)
    (hclosed : s.state = .Closed) :
    messages.foldl (fun s0 v => s0.rbufAppend (toBytes v)) s = s := by
  induction messages with
  | nil => rfl
  | cons m ms ih =>
    simp only [List.foldl_cons]
    have h1 : s.rbufAppend (toBytes m) = s := by
      simp [session.rbufAppend, hclosed]
    rw [h1, ih]

theorem xhrSendHandler_ok {H C : Type} (decode : Bytes → Except DecodeError (List Str))
    (h : handler H C) (r : Request) (sessid : Str) (s : session) (messages : List Str)
    (hs : h.pool.get sessid = some s) (hopen : s.state ≠ .Closed)
    (hd : decode r.Body = .ok messages) :
    xhrSendHandler decode h r sessid
      = ({ h with
            pool := (h.pool.store sessid { s with rbuf := s.rbuf ++ messages.map toBytes }) },
          [.headerAdd "Content-Type".toList "text/plain; charset=UTF-8".toList, .sid,
            .xhrCors, .noCache, .Decode, .WriteHeader StatusNoContent]) := by
  unfold xhrSendHandler
  simp only [hs, hd, rbufAppend_foldl messages s hopen]
  rfl

theorem xhrSendHandler_closed {H C : Type} (decode : Bytes → Except DecodeError (List Str))
    (h : handler H C) (r : Request) (sessid : Str) (s : session) (messages : List Str)
    (hs : h.pool.get sessid = some s) (hclosed : s.state = .Closed)
    (hd : decode r.Body = .ok messages) :
    xhrSendHandler decode h r sessid
      = ({ h with pool := h.pool.store sessid s },
          [.headerAdd "Content-Type".toList "text/plain; charset=UTF-8".toList, .sid,
            .xhrCors, .noCache, .Decode, .WriteHeader StatusNoContent]) := by
  unfold xhrSendHandler
  simp only [hs, hd, rbufAppend_foldl_closed messages s hclosed]
  rfl

theorem store_get (p : legacyPool) (sessid : Str) (s : session) :
    (p.store sessid s).get sessid = some s := by
  simp [legacyPool.store, legacyPool.get]

theorem store_get_ne (p : legacyPool) (sessid other : Str) (s : session) (hne : other ≠ sessid) :
    (p.store sessid s).get other = p.get other := by
  simp [legacyPool.store, legacyPool.get, hne]

theorem init_loop (n : Nat) (l : Bytes) (hn : n ≤ l.length) :
    (List.range n).foldl (fun p i => p.set i 104) l = List.replicate n 104 ++ l.drop n := by
  induction n with
  | zero => simp
  | succ n ih =>
    have hlt : n < l.length := hn
    rw [List.range_succ, List.foldl_append, ih (Nat.le_of_lt hlt)]
    simp only [List.foldl_cons, List.foldl_nil]
    rw [List.drop_eq_getElem_cons hlt, List.set_append]
    simp only [List.length_replicate, Nat.lt_irrefl, if_false, Nat.sub_self, List.set_cons_zero,
      List.replicate_succ', List.append_assoc, List.singleton_append]

theorem set_replicate_append (n a b c : Nat) :
    (List.replicate n a ++ [b]).set n c = List.replicate n a ++ [c] := by
  rw [List.set_append]
  simp

theorem drop_replicate_succ (n a : Nat) :
    (List.replicate (n + 1) a).drop n = [a] := by
  rw [List.drop_replicate]
  simp

theorem prelude_eq : prelude = List.replicate 2048 104 ++ [10] := by
  unfold prelude init preludeMake
  rw [init_loop 2048 _ (by rw [List.length_replicate]; exact Nat.le_succ 2048)]
  rw [drop_replicate_succ 2048 0]
  exact set_replicate_append 2048 104 0 10

/-! ## The matcher accepts only what the pattern describes -/

theorem starLoop_sound (a : Regex) (step : Str → Caps → List Thread)
    (hstep : ∀ s k t, t ∈ step s k → ∃ u, s = u ++ t.1 ∧ Regex.Matches a u) :
    ∀ (fuel : Nat) (s : Str) (k : Caps) (t : Thread), t ∈ starLoop step fuel s k →
      ∃ u, s = u ++ t.1 ∧ Regex.Matches (.star a) u := by
  intro fuel
  induction fuel with
  | zero =>
    intro s k t ht
    simp only [starLoop, List.mem_singleton] at ht
    subst ht
    exact ⟨[], rfl, .starNil⟩
  | succ n ih =>
    intro s k t ht
    simp only [starLoop, List.mem_append, List.mem_flatMap, List.mem_filter,
      List.mem_singleton] at ht
    rcases ht with ⟨r, ⟨hr, _⟩, htr⟩ | ht
    · obtain ⟨u1, hu1, hm1⟩ := hstep s k r hr
      obtain ⟨u2, hu2, hm2⟩ := ih r.1 r.2 t htr
      refine ⟨u1 ++ u2, ?_, .starCons hm1 hm2⟩
      rw [hu1, hu2, List.append_assoc]
    · subst ht
      exact ⟨[], rfl, .starNil⟩

theorem run_sound : ∀ (r : Regex) (s : Str) (k : Caps) (t : Thread), t ∈ r.run s k →
    ∃ u, s = u ++ t.1 ∧ Regex.Matches r u := by
  intro r
  induction r with
  | empty =>
    intro s k t ht
    simp only [Regex.run, List.mem_singleton] at ht
    subst ht
    exact ⟨[], rfl, .empty⟩
  | char c =>
    intro s k t ht
    cases s with
    | nil => simp [Regex.run] at ht
    | cons x xs =>
      simp only [Regex.run] at ht
      split at ht
      · rename_i hx
        simp only [List.mem_singleton] at ht
        subst ht
        subst hx
        exact ⟨[x], rfl, .char x⟩
      · simp at ht
  | cls p =>
    intro s k t ht
    cases s with
    | nil => simp [Regex.run] at ht
    | cons x xs =>
      simp only [Regex.run] at ht
      split at ht
      · rename_i hx
        simp only [List.mem_singleton] at ht
        subst ht
        exact ⟨[x], rfl, .cls p x hx⟩
      · simp at ht
  | seq a b iha ihb =>
    intro s k t ht
    simp only [Regex.run, List.mem_flatMap] at ht
    obtain ⟨r, hr, htr⟩ := ht
    obtain ⟨u1, hu1, hm1⟩ := iha s k r hr
    obtain ⟨u2, hu2, hm2⟩ := ihb r.1 r.2 t htr
    refine ⟨u1 ++ u2, ?_, .seq hm1 hm2⟩
    rw [hu1, hu2, List.append_assoc]
  | alt a b iha ihb =>
    intro s k t ht
    simp only [Regex.run, List.mem_append] at ht
    rcases ht with ht | ht
    · obtain ⟨u, hu, hm⟩ := iha s k t ht
      exact ⟨u, hu, .altL hm⟩
    · obtain ⟨u, hu, hm⟩ := ihb s k t ht
      exact ⟨u, hu, .altR hm⟩
  | opt a iha =>
    intro s k t ht
    simp only [Regex.run, List.mem_append, List.mem_singleton] at ht
    rcases ht with ht | ht
    · obtain ⟨u, hu, hm⟩ := iha s k t ht
      exact ⟨u, hu, .optSome hm⟩
    · subst ht
      exact ⟨[], rfl, .optNone⟩
  | star a iha =>
    intro s k t ht
    simp only [Regex.run] at ht
    exact starLoop_sound a _ iha _ s k t ht
  | plus a iha =>
    intro s k t ht
    simp only [Regex.run, List.mem_flatMap] at ht
    obtain ⟨r, hr, htr⟩ := ht
    obtain ⟨u1, hu1, hm1⟩ := iha s k r hr
    obtain ⟨u2, hu2, hm2⟩ := starLoop_sound a _ iha _ r.1 r.2 t htr
    refine ⟨u1 ++ u2, ?_, .plus hm1 hm2⟩
    rw [hu1, hu2, List.append_assoc]
  | group i a iha =>
    intro s k t ht
    simp only [Regex.run, List.mem_map] at ht
    obtain ⟨r, hr, hrt⟩ := ht
    obtain ⟨u, hu, hm⟩ := iha s k r hr
    subst hrt
    exact ⟨u, hu, .group hm⟩

theorem matchString_sound (re : Regexp) (s : Str) (h : re.MatchString s = true) :
    Regex.Matches re.body s := by
  unfold Regexp.MatchString Regexp.firstMatch at h
  rw [Option.isSome_iff_exists] at h
  obtain ⟨t, ht⟩ := h
  have hmem := List.mem_of_find?_eq_some ht
  have hemp := List.find?_some ht
  obtain ⟨u, hu, hm⟩ := run_sound re.body s [] t hmem
  have : t.1 = [] := by simpa using hemp
  rw [this, List.append_nil] at hu
  rw [hu]
  exact hm

theorem matches_lit : ∀ (t u : Str), Regex.Matches (Regex.lit t) u → u = t := by
  intro t
  induction t with
  | nil =>
    intro u h
    cases h
    rfl
  | cons c cs ih =>
    intro u h
    simp only [Regex.lit] at h
    cases h with
    | seq h1 h2 =>
      cases h1
      rw [ih _ h2]
      rfl

theorem matches_star_cls (p : Char → Bool) (u : Str) (h : Regex.Matches (.star (.cls p)) u) :
    ∀ c ∈ u, p c = true := by
  generalize hr : Regex.star (.cls p) = r at h
  induction h with
  | starNil => simp
  | starCons h1 _ _ ih2 =>
    cases hr
    cases h1 with
    | cls _ x hx =>
      intro c hc
      simp only [List.singleton_append, List.mem_cons] at hc
      rcases hc with hc | hc
      · rw [hc]; exact hx
      · exact ih2 rfl c hc
  | _ => cases hr

theorem matches_plus_cls (p : Char → Bool) (u : Str) (h : Regex.Matches (.plus (.cls p)) u) :
    u ≠ [] ∧ ∀ c ∈ u, p c = true := by
  cases h with
  | plus h1 h2 =>
    cases h1 with
    | cls _ x hx =>
      refine ⟨by simp, ?_⟩
      intro c hc
      simp only [List.singleton_append, List.mem_cons] at hc
      rcases hc with hc | hc
      · rw [hc]; exact hx
      · exact matches_star_cls p _ h2 c hc

theorem matches_alt (a b : Regex) (u : Str) (h : Regex.Matches (.alt a b) u) :
    Regex.Matches a u ∨ Regex.Matches b u := by
  cases h with
  | altL h => exact Or.inl h
  | altR h => exact Or.inr h

theorem matches_transportAlt (t : Str) (h : Regex.Matches transportAlt t) :
    t ∈ transportNames := by
  unfold transportAlt at h
  unfold transportNames
  rcases matches_alt _ _ _ h with h | h
  · simp [matches_lit _ _ h]
  rcases matches_alt _ _ _ h with h | h
  · simp [matches_lit _ _ h]
  rcases matches_alt _ _ _ h with h | h
  · simp [matches_lit _ _ h]
  rcases matches_alt _ _ _ h with h | h
  · simp [matches_lit _ _ h]
  rcases matches_alt _ _ _ h with h | h
  · simp [matches_lit _ _ h]
  rcases matches_alt _ _ _ h with h | h
  · simp [matches_lit _ _ h]
  rcases matches_alt _ _ _ h with h | h
  · simp [matches_lit _ _ h]
  · simp [matches_lit _ _ h]

theorem session_shape (path : Str) (h : reSessionUrl.MatchString path = true) :
    ∃ p s t, path = sessionPath p s t ∧ isSegment p ∧ isSegment s ∧ t ∈ transportNames := by
  have hm := matchString_sound _ _ h
  unfold reSessionUrl at hm
  simp only at hm
  cases hm with
  | seq h1 h2 =>
    cases h1
    cases h2 with
    | seq hp h3 =>
      cases h3 with
      | seq h4 h5 =>
        cases h4
        cases h5 with
        | seq hs h6 =>
          cases hs with
          | group hs =>
            cases h6 with
            | seq h7 h8 =>
              cases h7
              cases h8 with
              | group ht =>
                rename_i p s t
                refine ⟨p, s, t, ?_, matches_plus_cls _ _ hp, matches_plus_cls _ _ hs,
                  matches_transportAlt _ ht⟩
                simp [sessionPath]

theorem greeting_shape (path : Str) (h : reGreeting.MatchString path = true) :
    path = [] ∨ path = ['/'] := by
  have hm := matchString_sound _ _ h
  unfold reGreeting at hm
  simp only at hm
  cases hm with
  | optNone => exact Or.inl rfl
  | optSome h1 =>
    cases h1
    exact Or.inr rfl

theorem info_shape (path : Str) (h : reInfo.MatchString path = true) :
    path = "/info".toList :=
  matches_lit _ _ (matchString_sound _ _ h)

theorem rawWebsocket_shape (path : Str) (h : reRawWebsocket.MatchString path = true) :
    path = "/websocket".toList :=
  matches_lit _ _ (matchString_sound _ _ h)

theorem iframe_shape (path : Str) (h : reIframe.MatchString path = true) :
    ∃ x, path = "/iframe".toList ++ x ++ ".html".toList ∧ ∀ c ∈ x, clsIframe c = true := by
  have hm := matchString_sound _ _ h
  unfold reIframe at hm
  simp only at hm
  cases hm with
  | seq h1 h2 =>
    cases h2 with
    | seq h3 h4 =>
      rename_i u x v
      refine ⟨x, ?_, matches_star_cls _ _ h3⟩
      rw [matches_lit _ _ h1, matches_lit _ _ h4, List.append_assoc]

theorem session_slash (path : Str) (h : reSessionUrl.MatchString path = true) :
    ∃ w, path = '/' :: w ∧ '/' ∈ w := by
  obtain ⟨p, s, t, hp, _, _, _⟩ := session_shape path h
  exact ⟨p ++ '/' :: s ++ '/' :: t, hp, by simp⟩

theorem greeting_no_slash (path : Str) (h : reGreeting.MatchString path = true) :
    ¬ ∃ w, path = '/' :: w ∧ '/' ∈ w := by
  rintro ⟨w, hw, hmem⟩
  rcases greeting_shape path h with h0 | h0
  · rw [h0] at hw; cases hw
  · rw [h0] at hw
    cases hw
    simp at hmem

theorem info_no_slash (path : Str) (h : reInfo.MatchString path = true) :
    ¬ ∃ w, path = '/' :: w ∧ '/' ∈ w := by
  rintro ⟨w, hw, hmem⟩
  rw [info_shape path h] at hw
  cases hw
  revert hmem
  decide

theorem rawWebsocket_no_slash (path : Str) (h : reRawWebsocket.MatchString path = true) :
    ¬ ∃ w, path = '/' :: w ∧ '/' ∈ w := by
  rintro ⟨w, hw, hmem⟩
  rw [rawWebsocket_shape path h] at hw
  cases hw
  revert hmem
  decide

theorem iframe_no_slash (path : Str) (h : reIframe.MatchString path = true) :
    ¬ ∃ w, path = '/' :: w ∧ '/' ∈ w := by
  rintro ⟨w, hw, hmem⟩
  obtain ⟨x, hx, hcls⟩ := iframe_shape path h
  rw [hx] at hw
  have hw2 : w = "iframe".toList ++ x ++ ".html".toList := by
    have : "/iframe".toList = '/' :: "iframe".toList := rfl
    rw [this] at hw
    simp only [List.cons_append, List.cons.injEq, true_and] at hw
    exact hw.symm
  rw [hw2] at hmem
  simp only [List.mem_append] at hmem
  rcases hmem with (hmem | hmem) | hmem
  · revert hmem; decide
  · have := hcls _ hmem
    revert this
    decide
  · revert hmem; decide

/-! ## The matcher on a session URL -/

theorem starLoop_step_flatMap (P : Char → Bool) (step : Str → Caps → List Thread)
    (hstep : ∀ x xs k, step (x :: xs) k = if P x = true then [(xs, k)] else [])
    (F : Thread → List Thread) (c : Char)
    (hc : P c = false) (hF : ∀ x xs k, P x = true → F (x :: xs, k) = []) :
    ∀ (p : Str), (∀ x ∈ p, P x = true) → ∀ fuel, p.length ≤ fuel → ∀ rest k,
      (starLoop step fuel (p ++ c :: rest) k).flatMap F = F (c :: rest, k) := by
  intro p
  induction p with
  | nil =>
    intro _ fuel _ rest k
    cases fuel with
    | zero => simp [starLoop]
    | succ n => simp [starLoop, hstep, hc]
  | cons x p1 ih =>
    intro hp fuel hfuel rest k
    cases fuel with
    | zero => simp at hfuel
    | succ n =>
      have hx : P x = true := hp x (by simp)
      have hp1 : ∀ y ∈ p1, P y = true := fun y hy => hp y (by simp [hy])
      have hn : p1.length ≤ n := by simpa using hfuel
      have h1 := ih hp1 n hn rest k
      have h2 := hF x (p1 ++ c :: rest) k hx
      simp only [List.cons_append, starLoop, hstep, hx, if_true, List.filter_cons,
        List.length_cons, Nat.lt_succ_self, decide_True, List.filter_nil, List.flatMap_cons,
        List.flatMap_nil, List.append_nil, List.flatMap_append]
      rw [h1, h2, List.append_nil]

theorem run_cls_cons (P : Char → Bool) (x : Char) (xs : Str) (k : Caps) :
    (Regex.cls P).run (x :: xs) k = if P x = true then [(xs, k)] else [] := by
  simp [Regex.run]

theorem plus_cls_flatMap (P : Char → Bool) (F : Thread → List Thread) (c : Char)
    (hc : P c = false) (hF : ∀ x xs k, P x = true → F (x :: xs, k) = [])
    (p : Str) (hne : p ≠ []) (hp : ∀ x ∈ p, P x = true) (rest : Str) (k : Caps) :
    ((Regex.plus (.cls P)).run (p ++ c :: rest) k).flatMap F = F (c :: rest, k) := by
  cases p with
  | nil => exact absurd rfl hne
  | cons x p1 =>
    have hx : P x = true := hp x (by simp)
    have hp1 : ∀ y ∈ p1, P y = true := fun y hy => hp y (by simp [hy])
    have h1 := starLoop_step_flatMap P (fun s1 k1 => (Regex.cls P).run s1 k1)
      (fun x xs k => run_cls_cons P x xs k) F c hc hF p1 hp1
      (p1 ++ c :: rest).length (by simp) rest k
    rw [Regex.run, List.cons_append, run_cls_cons, if_pos hx]
    simp only [List.flatMap_cons, List.flatMap_nil, List.append_nil]
    exact h1

theorem run_seq (a b : Regex) (s : Str) (k : Caps) :
    (Regex.seq a b).run s k = (a.run s k).flatMap (fun r => b.run r.1 r.2) := by
  rw [Regex.run]

theorem run_group (i : Nat) (a : Regex) (s : Str) (k : Caps) :
    (Regex.group i a).run s k
      = (a.run s k).map (fun r => (r.1, (i, s.take (s.length - r.1.length)) :: r.2)) := by
  rw [Regex.run]

theorem run_seq_char_cons (c : Char) (Y : Regex) (xs : Str) (k : Caps) :
    (Regex.seq (.char c) Y).run (c :: xs) k = Y.run xs k := by
  simp [Regex.run]

theorem run_seq_char_ne (c x : Char) (Y : Regex) (xs : Str) (k : Caps) (h : x ≠ c) :
    (Regex.seq (.char c) Y).run (x :: xs) k = [] := by
  simp [Regex.run, h]

theorem clsSeg_ne_slash (x : Char) (hx : clsSeg x = true) : x ≠ '/' := by
  intro h
  rw [h] at hx
  revert hx
  decide

theorem take_segment (s t : Str) :
    (s ++ '/' :: t).take ((s ++ '/' :: t).length - ('/' :: t).length) = s := by
  have h : (s ++ '/' :: t).length - ('/' :: t).length = s.length := by
    simp
  rw [h, List.take_left]

theorem session_run (p s t : Str) (hp : isSegment p) (hs : isSegment s) :
    reSessionUrl.body.run (sessionPath p s t) []
      = (transportAlt.run t [(1, s)]).map
          (fun r => (r.1, (2, t.take (t.length - r.1.length)) :: r.2)) := by
  have hslash : clsSeg '/' = false := by decide
  have e : sessionPath p s t = '/' :: (p ++ '/' :: (s ++ '/' :: t)) := by
    simp [sessionPath]
  rw [e]
  unfold reSessionUrl
  simp only
  rw [run_seq_char_cons, run_seq]
  rw [plus_cls_flatMap clsSeg _ '/' hslash
    (fun x xs k hx => run_seq_char_ne '/' x _ xs k (clsSeg_ne_slash x hx)) p hp.1 hp.2]
  simp only
  rw [run_seq_char_cons, run_seq, run_group, List.flatMap_map]
  rw [plus_cls_flatMap clsSeg _ '/' hslash
    (fun x xs _ hx => run_seq_char_ne '/' x _ xs _ (clsSeg_ne_slash x hx)) s hs.1 hs.2]
  simp only
  rw [take_segment, run_seq_char_cons, run_group]

theorem transport_first (t : Str) (ht : t ∈ transportNames) (k : Caps) :
    ((transportAlt.run t k).map
        (fun r => (r.1, (2, t.take (t.length - r.1.length)) :: r.2))).find?
      (fun r => r.1.isEmpty) = some ([], (2, t) :: k) := by
  simp only [transportNames, List.mem_cons, List.mem_singleton, List.not_mem_nil, or_false] at ht
  rcases ht with h | h | h | h | h | h | h | h <;> subst h <;>
    simp [transportAlt, Regex.lit, Regex.run]

theorem session_firstMatch (p s t : Str) (hp : isSegment p) (hs : isSegment s)
    (ht : t ∈ transportNames) :
    reSessionUrl.firstMatch (sessionPath p s t) = some ([], [(2, t), (1, s)]) := by
  unfold Regexp.firstMatch
  rw [session_run p s t hp hs]
  exact transport_first t ht [(1, s)]

theorem session_submatch (p s t : Str) (hp : isSegment p) (hs : isSegment s)
    (ht : t ∈ transportNames) :
    reSessionUrl.FindStringSubmatch (sessionPath p s t) = some [sessionPath p s t, s, t] := by
  unfold Regexp.FindStringSubmatch
  rw [session_firstMatch p s t hp hs ht]
  rfl

theorem session_match (p s t : Str) (hp : isSegment p) (hs : isSegment s)
    (ht : t ∈ transportNames) :
    reSessionUrl.MatchString (sessionPath p s t) = true := by
  unfold Regexp.MatchString
  rw [session_firstMatch p s t hp hs ht]
  rfl

/-! ## The `switch` of `ServeHTTP` -/

theorem serve_eq_switch {H C : Type} (decode : Bytes → Except DecodeError (List Str))
    (h : handler H C) (r : Request) :
    h.ServeHTTP decode r = ServeHTTPWith decode serveCases h r := by
  unfold handler.ServeHTTP ServeHTTPWith
  cases sliceFrom r.Path (len h.pfx) with
  | none => rfl
  | some path =>
    simp only
    generalize r.Method = method
    simp only [switchOn, serveCases, List.find?]
    show some (if Route.guard .greeting method path = true then _
      else if Route.guard .iframe method path = true then _
      else if Route.guard .infoOptions method path = true then _
      else if Route.guard .info method path = true then _
      else if Route.guard .rawWebsocket method path = true then _
      else if Route.guard .sessionGet method path = true then _
      else if Route.guard .sessionPost method path = true then _
      else if Route.guard .sessionOptions method path = true then _
      else _) = _
    cases Route.guard .greeting method path
    swap
    · rfl
    cases Route.guard .iframe method path
    swap
    · rfl
    cases Route.guard .infoOptions method path
    swap
    · rfl
    cases Route.guard .info method path
    swap
    · rfl
    cases Route.guard .rawWebsocket method path
    swap
    · rfl
    cases Route.guard .sessionGet method path
    swap
    · rfl
    cases Route.guard .sessionPost method path
    swap
    · rfl
    cases Route.guard .sessionOptions method path
    swap
    · rfl
    rfl

/-! ## The five patterns are pairwise disjoint -/

theorem disj_greeting_info (path : Str) (h1 : reGreeting.MatchString path = true)
    (h2 : reInfo.MatchString path = true) : False := by
  have e := info_shape path h2
  rcases greeting_shape path h1 with h0 | h0 <;> rw [h0] at e <;> revert e <;> decide

theorem disj_greeting_rawWebsocket (path : Str) (h1 : reGreeting.MatchString path = true)
    (h2 : reRawWebsocket.MatchString path = true) : False := by
  have e := rawWebsocket_shape path h2
  rcases greeting_shape path h1 with h0 | h0 <;> rw [h0] at e <;> revert e <;> decide

theorem disj_greeting_iframe (path : Str) (h1 : reGreeting.MatchString path = true)
    (h2 : reIframe.MatchString path = true) : False := by
  obtain ⟨x, e, _⟩ := iframe_shape path h2
  have hl : 12 ≤ path.length := by
    have e1 : "/iframe".toList.length = 7 := rfl
    have e2 : ".html".toList.length = 5 := rfl
    rw [e, List.length_append, List.length_append, e1, e2]
    omega
  rcases greeting_shape path h1 with h0 | h0 <;> rw [h0] at hl <;> simp at hl

theorem disj_info_rawWebsocket (path : Str) (h1 : reInfo.MatchString path = true)
    (h2 : reRawWebsocket.MatchString path = true) : False := by
  have e := rawWebsocket_shape path h2
  rw [info_shape path h1] at e
  revert e
  decide

theorem disj_info_iframe (path : Str) (h1 : reInfo.MatchString path = true)
    (h2 : reIframe.MatchString path = true) : False := by
  obtain ⟨x, e, _⟩ := iframe_shape path h2
  rw [info_shape path h1] at e
  have e1 : "/info".toList = ['/', 'i', 'n', 'f', 'o'] := rfl
  have e2 : "/iframe".toList = ['/', 'i', 'f', 'r', 'a', 'm', 'e'] := rfl
  rw [e1, e2] at e
  simp at e

theorem disj_rawWebsocket_iframe (path : Str) (h1 : reRawWebsocket.MatchString path = true)
    (h2 : reIframe.MatchString path = true) : False := by
  obtain ⟨x, e, _⟩ := iframe_shape path h2
  rw [rawWebsocket_shape path h1] at e
  have e1 : "/websocket".toList = ['/', 'w', 'e', 'b', 's', 'o', 'c', 'k', 'e', 't'] := rfl
  have e2 : "/iframe".toList = ['/', 'i', 'f', 'r', 'a', 'm', 'e'] := rfl
  rw [e1, e2] at e
  simp at e

theorem disj_session_greeting (path : Str) (h1 : reSessionUrl.MatchString path = true)
    (h2 : reGreeting.MatchString path = true) : False :=
  greeting_no_slash path h2 (session_slash path h1)

theorem disj_session_info (path : Str) (h1 : reSessionUrl.MatchString path = true)
    (h2 : reInfo.MatchString path = true) : False :=
  info_no_slash path h2 (session_slash path h1)

theorem disj_session_rawWebsocket (path : Str) (h1 : reSessionUrl.MatchString path = true)
    (h2 : reRawWebsocket.MatchString path = true) : False :=
  rawWebsocket_no_slash path h2 (session_slash path h1)

theorem disj_session_iframe (path : Str) (h1 : reSessionUrl.MatchString path = true)
    (h2 : reIframe.MatchString path = true) : False :=
  iframe_no_slash path h2 (session_slash path h1)

/-! ## The order of the cases does not matter -/

theorem guard_unique (a b : Route) (method path : Str) (ha : a.guard method path = true)
    (hb : b.guard method path = true) : a = b := by
  cases a <;> cases b <;>
    simp only [Route.guard, Bool.and_eq_true, decide_eq_true_eq] at ha hb
  · rfl
  · exact (disj_greeting_iframe path ha.2 hb.2).elim
  · exact absurd (ha.1.symm.trans hb.1) (by decide)
  · exact (disj_greeting_info path ha.2 hb.2).elim
  · exact (disj_greeting_rawWebsocket path ha.2 hb.2).elim
  · exact (disj_session_greeting path hb.2 ha.2).elim
  · exact absurd (ha.1.symm.trans hb.1) (by decide)
  · exact absurd (ha.1.symm.trans hb.1) (by decide)
  · exact (disj_greeting_iframe path hb.2 ha.2).elim
  · rfl
  · exact absurd (ha.1.symm.trans hb.1) (by decide)
  · exact (disj_info_iframe path hb.2 ha.2).elim
  · exact (disj_rawWebsocket_iframe path hb.2 ha.2).elim
  · exact (disj_session_iframe path hb.2 ha.2).elim
  · exact absurd (ha.1.symm.trans hb.1) (by decide)
  · exact absurd (ha.1.symm.trans hb.1) (by decide)
  · exact absurd (ha.1.symm.trans hb.1) (by decide)
  · exact absurd (ha.1.symm.trans hb.1) (by decide)
  · rfl
  · exact absurd (ha.1.symm.trans hb.1) (by decide)
  · exact absurd (ha.1.symm.trans hb.1) (by decide)
  · exact absurd (ha.1.symm.trans hb.1) (by decide)
  · exact absurd (ha.1.symm.trans hb.1) (by decide)
  · exact (disj_session_info path hb.2 ha.2).elim
  · exact (disj_greeting_info path hb.2 ha.2).elim
  · exact (disj_info_iframe path ha.2 hb.2).elim
  · exact absurd (ha.1.symm.trans hb.1) (by decide)
  · rfl
  · exact (disj_info_rawWebsocket path ha.2 hb.2).elim
  · exact (disj_session_info path hb.2 ha.2).elim
  · exact absurd (ha.1.symm.trans hb.1) (by decide)
  · exact absurd (ha.1.symm.trans hb.1) (by decide)
  · exact (disj_greeting_rawWebsocket path hb.2 ha.2).elim
  · exact (disj_rawWebsocket_iframe path ha.2 hb.2).elim
  · exact absurd (ha.1.symm.trans hb.1) (by decide)
  · exact (disj_info_rawWebsocket path hb.2 ha.2).elim
  · rfl
  · exact (disj_session_rawWebsocket path hb.2 ha.2).elim
  · exact absurd (ha.1.symm.trans hb.1) (by decide)
  · exact absurd (ha.1.symm.trans hb.1) (by decide)
  · exact (disj_session_greeting path ha.2 hb.2).elim
  · exact (disj_session_iframe path ha.2 hb.2).elim
  · exact absurd (ha.1.symm.trans hb.1) (by decide)
  · exact (disj_session_info path ha.2 hb.2).elim
  · exact (disj_session_rawWebsocket path ha.2 hb.2).elim
  · rfl
  · exact absurd (ha.1.symm.trans hb.1) (by decide)
  · exact absurd (ha.1.symm.trans hb.1) (by decide)
  · exact absurd (ha.1.symm.trans hb.1) (by decide)
  · exact absurd (ha.1.symm.trans hb.1) (by decide)
  · exact absurd (ha.1.symm.trans hb.1) (by decide)
  · exact absurd (ha.1.symm.trans hb.1) (by decide)
  · exact absurd (ha.1.symm.trans hb.1) (by decide)
  · exact absurd (ha.1.symm.trans hb.1) (by decide)
  · rfl
  · exact absurd (ha.1.symm.trans hb.1) (by decide)
  · exact absurd (ha.1.symm.trans hb.1) (by decide)
  · exact absurd (ha.1.symm.trans hb.1) (by decide)
  · exact (disj_session_info path ha.2 hb.2).elim
  · exact absurd (ha.1.symm.trans hb.1) (by decide)
  · exact absurd (ha.1.symm.trans hb.1) (by decide)
  · exact absurd (ha.1.symm.trans hb.1) (by decide)
  · exact absurd (ha.1.symm.trans hb.1) (by decide)
  · rfl

theorem find_perm {α : Type} (q : α → Bool) (l1 l2 : List α) (hp : l1.Perm l2)
    (hq : ∀ a b, q a = true → q b = true → a = b) : l1.find? q = l2.find? q := by
  cases h1 : l1.find? q with
  | none =>
    rw [List.find?_eq_none] at h1
    symm
    rw [List.find?_eq_none]
    intro x hx
    exact h1 x (hp.mem_iff.mpr hx)
  | some a =>
    have ha : q a = true := List.find?_some h1
    have hmem : a ∈ l2 := hp.mem_iff.mp (List.mem_of_find?_eq_some h1)
    cases h2 : l2.find? q with
    | none =>
      rw [List.find?_eq_none] at h2
      exact absurd ha (h2 a hmem)
    | some b =>
      rw [hq a b ha (List.find?_some h2)]

theorem switch_perm {H C : Type} (decode : Bytes → Except DecodeError (List Str))
    (cs : List Route) (hcs : cs.Perm serveCases) (h : handler H C) (r : Request) :
    ServeHTTPWith decode cs h r = h.ServeHTTP decode r := by
  rw [serve_eq_switch]
  unfold ServeHTTPWith switchOn
  cases sliceFrom r.Path (len h.pfx) with
  | none => rfl
  | some path =>
    simp only
    rw [find_perm _ cs serveCases hcs (fun a b ha hb => guard_unique a b _ _ ha hb)]

/-! ## What `ServeHTTP` runs -/

theorem len_cons (c : Char) (cs : Str) : len (c :: cs) = len [c] + len cs := by
  simp [len, toBytes]

theorem len_pos (c : Char) : 0 < len [c] := by
  simp [len, toBytes, Char.utf8Size_pos]

theorem sliceFrom_zero (s : Str) : sliceFrom s 0 = some s := by
  cases s <;> rfl

theorem sliceFrom_append (pfx rest : Str) : sliceFrom (pfx ++ rest) (len pfx) = some rest := by
  induction pfx with
  | nil => exact sliceFrom_zero rest
  | cons c cs ih =>
    obtain ⟨k, hk⟩ : ∃ k, len [c] + len cs = k + 1 :=
      ⟨len [c] + len cs - 1, by have := len_pos c; omega⟩
    rw [len_cons, hk, List.cons_append, sliceFrom, if_pos (by omega)]
    have e : k + 1 - len [c] = len cs := by omega
    rw [e, ih]

theorem sliceFrom_of_le : ∀ (s : Str) (n : Nat), n ≤ len s → ∃ path, sliceFrom s n = some path := by
  intro s
  induction s with
  | nil =>
    intro n hn
    have h0 : n = 0 := by simpa [len, toBytes] using hn
    subst h0
    exact ⟨[], rfl⟩
  | cons c cs ih =>
    intro n hn
    cases n with
    | zero => exact ⟨c :: cs, rfl⟩
    | succ k =>
      rw [sliceFrom]
      by_cases hc : len [c] ≤ k + 1
      · rw [if_pos hc]
        rw [len_cons] at hn
        exact ih _ (by omega)
      · rw [if_neg hc]
        exact ⟨_, rfl⟩

theorem sliceFrom_of_lt : ∀ (s : Str) (n : Nat), len s < n → sliceFrom s n = none := by
  intro s
  induction s with
  | nil =>
    intro n hn
    cases n with
    | zero => simp at hn
    | succ k => rfl
  | cons c cs ih =>
    intro n hn
    rw [len_cons] at hn
    cases n with
    | zero => simp at hn
    | succ k =>
      rw [sliceFrom, if_pos (by omega)]
      exact ih _ (by omega)

theorem serve_path {H C : Type} (decode : Bytes → Except DecodeError (List Str))
    (h : handler H C) (r : Request) (path : Str) (hpath : r.Path = h.pfx ++ path) :
    h.ServeHTTP decode r = some (switchOn decode serveCases h r r.Method path) := by
  rw [serve_eq_switch]
  unfold ServeHTTPWith
  rw [hpath, sliceFrom_append]

theorem switch_of_guard {H C : Type} (decode : Bytes → Except DecodeError (List Str))
    (h : handler H C) (r : Request) (method path : Str) (c : Route)
    (hg : c.guard method path = true) :
    switchOn decode serveCases h r method path = c.body decode h r path := by
  have hmem : c ∈ serveCases := by
    cases c <;> simp [serveCases]
  unfold switchOn
  cases hf : serveCases.find? (fun c => c.guard method path) with
  | none =>
    rw [List.find?_eq_none] at hf
    exact absurd hg (hf c hmem)
  | some d =>
    have hd := List.find?_some hf
    rw [guard_unique d c method path hd hg]

theorem switch_default {H C : Type} (decode : Bytes → Except DecodeError (List Str))
    (h : handler H C) (r : Request) (method path : Str)
    (hg : ∀ c : Route, c.guard method path = false) :
    switchOn decode serveCases h r method path = (h, [.NotFound]) := by
  unfold switchOn
  have hf : serveCases.find? (fun c => c.guard method path) = none := by
    rw [List.find?_eq_none]
    intro c _
    simp [hg c]
  rw [hf]

theorem serve_post_session {H C : Type} (decode : Bytes → Except DecodeError (List Str))
    (h : handler H C) (r : Request) (p s t : Str) (hm : r.Method = "POST".toList)
    (hpath : r.Path = h.pfx ++ sessionPath p s t) (hp : isSegment p) (hs : isSegment s)
    (ht : t ∈ transportNames) :
    h.ServeHTTP decode r = some (postSwitch decode h r s t) := by
  rw [serve_path decode h r _ hpath, hm]
  rw [switch_of_guard decode h r _ _ .sessionPost
    (by simp [Route.guard, session_match p s t hp hs ht])]
  simp only [Route.body, session_submatch p s t hp hs ht]
  rfl

theorem serve_get_session {H C : Type} (decode : Bytes → Except DecodeError (List Str))
    (h : handler H C) (r : Request) (p s t : Str) (hm : r.Method = "GET".toList)
    (hpath : r.Path = h.pfx ++ sessionPath p s t) (hp : isSegment p) (hs : isSegment s)
    (ht : t ∈ transportNames) :
    h.ServeHTTP decode r = some (h, getSwitch s t) := by
  rw [serve_path decode h r _ hpath, hm]
  rw [switch_of_guard decode h r _ _ .sessionGet
    (by simp [Route.guard, session_match p s t hp hs ht])]
  simp only [Route.body, session_submatch p s t hp hs ht]
  rfl

theorem serve_other_method {H C : Type} (decode : Bytes → Except DecodeError (List Str))
    (h : handler H C) (r : Request) (hlen : len h.pfx ≤ len r.Path)
    (h1 : r.Method ≠ "GET".toList) (h2 : r.Method ≠ "POST".toList)
    (h3 : r.Method ≠ "OPTIONS".toList) :
    h.ServeHTTP decode r = some (h, [.NotFound]) := by
  have e1 : decide (r.Method = "GET".toList) = false := decide_eq_false h1
  have e2 : decide (r.Method = "POST".toList) = false := decide_eq_false h2
  have e3 : decide (r.Method = "OPTIONS".toList) = false := decide_eq_false h3
  obtain ⟨path, hp⟩ := sliceFrom_of_le r.Path (len h.pfx) hlen
  rw [serve_eq_switch]
  unfold ServeHTTPWith
  rw [hp]
  simp only
  rw [switch_default decode h r _ _
    (by intro c; cases c <;> simp only [Route.guard, e1, e2, e3, Bool.false_and])]

theorem serve_short_path {H C : Type} (decode : Bytes → Except DecodeError (List Str))
    (h : handler H C) (r : Request) (hlen : len r.Path < len h.pfx) :
    h.ServeHTTP decode r = none := by
  unfold handler.ServeHTTP
  rw [sliceFrom_of_lt r.Path (len h.pfx) hlen]

theorem xhrSendHandler_no_legacy {H C : Type} (decode : Bytes → Except DecodeError (List Str))
    (h : handler H C) (r : Request) (sessid : Str) (id : Str) (pr : legacyProtocol) :
    Call.legacyHandler id pr ∉ (xhrSendHandler decode h r sessid).2 := by
  unfold xhrSendHandler
  cases h.pool.get sessid with
  | none => simp
  | some s0 =>
    cases decode r.Body with
    | error e => cases e <;> simp
    | ok ms => simp

theorem last_segment_unique (a b t u : Str) (ht : '/' ∉ t) (hu : '/' ∉ u)
    (e : a ++ '/' :: t = b ++ '/' :: u) : t = u := by
  rw [List.append_eq_append_iff] at e
  rcases e with ⟨x, _, hx⟩ | ⟨x, _, hx⟩
  · cases x with
    | nil =>
      simp only [List.nil_append, List.cons.injEq, true_and] at hx
      exact hx
    | cons y ys =>
      simp only [List.cons_append, List.cons.injEq] at hx
      exact absurd (by rw [hx.2]; simp) ht
  · cases x with
    | nil =>
      simp only [List.nil_append, List.cons.injEq, true_and] at hx
      exact hx.symm
    | cons y ys =>
      simp only [List.cons_append, List.cons.injEq] at hx
      exact absurd (by rw [hx.2]; simp) hu

theorem transport_no_slash (t : Str) (ht : t ∈ transportNames) : '/' ∉ t := by
  simp only [transportNames, List.mem_cons, List.mem_singleton, List.not_mem_nil, or_false] at ht
  rcases ht with h | h | h | h | h | h | h | h <;> subst h <;> decide

/-! ## Runs of `xhr_send` requests -/

theorem xhrSendAll_ok {H C : Type} (decode : Bytes → Except DecodeError (List Str))
    (sessid : Str) :
    ∀ (rs : List Request) (batches : List (List Str)) (h : handler H C) (s : session),
      h.pool.get sessid = some s → s.state ≠ .Closed →
      rs.map (fun r => decode r.Body)
        = batches.map (fun b => (Except.ok b : Except DecodeError (List Str))) →
      (xhrSendAll decode h rs sessid).pool.get sessid
        = some { s with rbuf := s.rbuf ++ batches.flatten.map toBytes } := by
  intro rs
  induction rs with
  | nil =>
    intro batches h s hs _ hd
    cases batches with
    | nil => simpa [xhrSendAll] using hs
    | cons b bs => simp at hd
  | cons r rs ih =>
    intro batches h s hs hopen hd
    cases batches with
    | nil => simp at hd
    | cons b bs =>
      simp only [List.map_cons, List.cons.injEq] at hd
      have h1 := xhrSendHandler_ok decode h r sessid s b hs hopen hd.1
      have h2 := ih bs (xhrSendHandler decode h r sessid).1
        { s with rbuf := s.rbuf ++ b.map toBytes } (by rw [h1]; exact store_get _ _ _)
        hopen hd.2
      simp only [xhrSendAll, List.foldl_cons] at h2 ⊢
      rw [h2]
      simp

theorem getD_last (pfx : Str) (d : Char) (hne : pfx ≠ []) :
    pfx.getLast? = some (pfx.getD (pfx.length - 1) d) := by
  rcases List.eq_nil_or_concat pfx with h0 | ⟨l, x, h0⟩
  · exact absurd h0 hne
  · subst h0
    simp [List.getD_eq_getElem?_getD]

theorem first_segment_unique (p q x y : Str) (hp : '/' ∉ p) (hq : '/' ∉ q)
    (e : p ++ '/' :: x = q ++ '/' :: y) : p = q ∧ x = y := by
  rw [List.append_eq_append_iff] at e
  rcases e with ⟨a, ha, hx⟩ | ⟨a, ha, hx⟩
  · cases a with
    | nil =>
      simp only [List.nil_append, List.cons.injEq, true_and] at hx
      simp only [List.append_nil] at ha
      exact ⟨ha.symm, hx⟩
    | cons z zs =>
      simp only [List.cons_append, List.cons.injEq] at hx
      exact absurd (by rw [ha, ← hx.1]; simp) hq
  · cases a with
    | nil =>
      simp only [List.nil_append, List.cons.injEq, true_and] at hx
      simp only [List.append_nil] at ha
      exact ⟨ha, hx.symm⟩
    | cons z zs =>
      simp only [List.cons_append, List.cons.injEq] at hx
      exact absurd (by rw [ha, ← hx.1]; simp) hp

theorem segment_no_slash (p : Str) (hp : isSegment p) : '/' ∉ p := by
  intro hmem
  have h := hp.2 _ hmem
  revert h
  decide

theorem session_only_segments (p s t : Str) (hp : '/' ∉ p) (hs : '/' ∉ s)
    (hm : reSessionUrl.MatchString (sessionPath p s t) = true) :
    isSegment p ∧ isSegment s ∧ t ∈ transportNames := by
  obtain ⟨p1, s1, t1, e, hp1, hs1, ht1⟩ := session_shape _ hm
  simp only [sessionPath, List.cons_append, List.append_assoc, List.cons.injEq, true_and] at e
  obtain ⟨e1, e2⟩ := first_segment_unique p p1 _ _ hp (segment_no_slash p1 hp1) e
  obtain ⟨e3, e4⟩ := first_segment_unique s s1 _ _ hs (segment_no_slash s1 hs1) e2
  rw [e1, e3, e4]
  exact ⟨hp1, hs1, ht1⟩

theorem session_last_segment (u v : Str) (hv : '/' ∉ v)
    (hm : reSessionUrl.MatchString (u ++ '/' :: v) = true) : v ∈ transportNames := by
  obtain ⟨p1, s1, t1, e, _, _, ht1⟩ := session_shape _ hm
  have e2 : u ++ '/' :: v = ('/' :: p1 ++ '/' :: s1) ++ '/' :: t1 := by
    rw [e]
    simp [sessionPath]
  rw [last_segment_unique _ _ v t1 hv (transport_no_slash t1 ht1) e2]
  exact ht1

/-! ## The decoder on blank bodies -/

theorem scan_blank : ∀ body : Bytes, body.all isSpace = true →
    body.foldl scanStep .beginTop = .beginTop := by
  intro body
  induction body with
  | nil => intro _; rfl
  | cons c cs ih =>
    intro hb
    simp only [List.all_cons, Bool.and_eq_true] at hb
    simp only [List.foldl_cons, scanStep, hb.1, if_true]
    exact ih hb.2

theorem scanStep_beginTop (s : Scan) (c : Nat) (h : scanStep s c = .beginTop) :
    s = .beginTop ∧ isSpace c = true := by
  cases s <;> simp only [scanStep, beginValue] at h <;> (repeat' split at h) <;> simp_all

theorem scan_beginTop_blank (body : Bytes) (h : body.foldl scanStep .beginTop = .beginTop) :
    body.all isSpace = true := by
  induction body using List.reverseRecOn with
  | nil => rfl
  | append_singleton l c ih =>
    rw [List.foldl_append] at h
    simp only [List.foldl_cons, List.foldl_nil] at h
    obtain ⟨h1, h2⟩ := scanStep_beginTop _ _ h
    simp [ih h1, h2]

theorem jsonDecode_eof (body : Bytes) :
    jsonDecode body = .error .EOF ↔ body.all isSpace = true := by
  constructor
  · intro h
    apply scan_beginTop_blank
    unfold jsonDecode at h
    cases hs : body.foldl scanStep .beginTop <;> rw [hs] at h <;> first | rfl | cases h
  · intro h
    unfold jsonDecode
    rw [scan_blank body h]

theorem jsonDecode_stringArray (body : Bytes) (h : isStringArray body = true) :
    ∃ ms, jsonDecode body = .ok ms := by
  unfold isStringArray at h
  unfold jsonDecode
  cases hs : body.foldl scanStep .beginTop <;> rw [hs] at h <;>
    first | exact ⟨_, rfl⟩ | cases h

/-! ## The claims -/

/-- Claim C1, as stated, refuted on the session modelled from the spec: a session that is
`Closed` and still in the pool accepts no inbound payload, so a request with the body
`["x","y"]`, a well-formed array that decodes to `x`, `y`, leaves its buffer as it was,
and is answered 204 all the same. -/
theorem xhrSend_closed_session_keeps_buffer :
    sampleClosedHandler.pool.get "abc".toList = some { state := .Closed, rbuf := [[7]] } ∧
      isStringArray [91, 34, 120, 34, 44, 34, 121, 34, 93] = true ∧
      jsonDecode (sampleRequest "POST" "/echo/0/abc/xhr_send"
          [91, 34, 120, 34, 44, 34, 121, 34, 93]).Body = .ok ["x".toList, "y".toList] ∧
      (xhrSendHandler jsonDecode sampleClosedHandler
          (sampleRequest "POST" "/echo/0/abc/xhr_send" [91, 34, 120, 34, 44, 34, 121, 34, 93])
          "abc".toList).1.pool.get "abc".toList = some { state := .Closed, rbuf := [[7]] } ∧
      ([[7]] : List Bytes) ≠ [[7]] ++ ["x".toList, "y".toList].map toBytes ∧
      (xhrSendHandler jsonDecode sampleClosedHandler
          (sampleRequest "POST" "/echo/0/abc/xhr_send" [91, 34, 120, 34, 44, 34, 121, 34, 93])
          "abc".toList).2
        = [.headerAdd "Content-Type".toList "text/plain; charset=UTF-8".toList, .sid,
            .xhrCors, .noCache, .Decode, .WriteHeader 204] := by
  have hs : sampleClosedHandler.pool.get "abc".toList
      = some { state := .Closed, rbuf := [[7]] } := by decide
  have hd : jsonDecode (sampleRequest "POST" "/echo/0/abc/xhr_send"
      [91, 34, 120, 34, 44, 34, 121, 34, 93]).Body = .ok ["x".toList, "y".toList] := rfl
  have hr := xhrSendHandler_closed jsonDecode sampleClosedHandler
    (sampleRequest "POST" "/echo/0/abc/xhr_send" [91, 34, 120, 34, 44, 34, 121, 34, 93])
    "abc".toList _ _ hs rfl hd
  refine ⟨hs, by decide, hd, ?_, ?_, ?_⟩
  · rw [hr]
    exact store_get _ _ _
  · intro h
    have hl := congrArg List.length h
    simp at hl
  · rw [hr]
    rfl

/-- Claim C1, amended: an `xhr_send` request for a session that the pool holds and that
is not `Closed`, whose body decodes to the strings `messages`, leaves that session with
the inbound buffer `before ++ bytes of messages` (each message once, in order), leaves
every other session as it was, and ends with `WriteHeader(204)`; and requests of this
kind handled one after another leave the buffer extended by their batches concatenated
in request order. -/
theorem xhrSend_appends_in_order {H C : Type}
    (decode : Bytes → Except DecodeError (List Str)) (h : handler H C) (sessid : Str)
    (s : session) (hs : h.pool.get sessid = some s) (hopen : s.state ≠ .Closed) :
    (∀ (r : Request) (messages : List Str), decode r.Body = .ok messages →
      (xhrSendHandler decode h r sessid).1.pool.get sessid
          = some { s with rbuf := s.rbuf ++ messages.map toBytes } ∧
        (∀ other, other ≠ sessid →
          (xhrSendHandler decode h r sessid).1.pool.get other = h.pool.get other) ∧
        (xhrSendHandler decode h r sessid).2
          = [.headerAdd "Content-Type".toList "text/plain; charset=UTF-8".toList, .sid,
              .xhrCors, .noCache, .Decode, .WriteHeader 204]) ∧
    (∀ (rs : List Request) (batches : List (List Str)),
      rs.map (fun r => decode r.Body)
          = batches.map (fun b => (Except.ok b : Except DecodeError (List Str))) →
        (xhrSendAll decode h rs sessid).pool.get sessid
          = some { s with rbuf := s.rbuf ++ batches.flatten.map toBytes }) := by
  refine ⟨?_, ?_⟩
  · intro r messages hd
    rw [xhrSendHandler_ok decode h r sessid s messages hs hopen hd]
    exact ⟨store_get _ _ _, fun other hne => store_get_ne _ _ _ _ hne, rfl⟩
  · intro rs batches hd
    exact xhrSendAll_ok decode sessid rs batches h s hs hopen hd

theorem xhrSend_appends_in_order_witness :
    sampleHandler.pool.get "abc".toList = some { state := .Open, rbuf := [[7]] } ∧
      (xhrSendHandler jsonDecode sampleHandler
          (sampleRequest "POST" "/echo/0/abc/xhr_send" [91, 34, 120, 34, 44, 34, 121, 34, 93])
          "abc".toList).1.pool.get "abc".toList
        = some { state := .Open, rbuf := [[7]] ++ ["x".toList, "y".toList].map toBytes } :=
  ⟨by decide,
    ((xhrSend_appends_in_order jsonDecode sampleHandler "abc".toList
      { state := .Open, rbuf := [[7]] } (by decide) (by decide)).1
      (sampleRequest "POST" "/echo/0/abc/xhr_send" [91, 34, 120, 34, 44, 34, 121, 34, 93])
      ["x".toList, "y".toList] rfl).1⟩

/-- Claim C2, as stated, refuted: the bodies `null`, `["a",null]` and `["x"]junk` are
not well-formed JSON arrays of strings, yet `Decode` returns no error on any of them;
each request is answered 204, and the last two append `a` and the empty payload, and
`x`, to the buffer of the session. -/
theorem xhrSend_accepts_malformed_body :
    sampleHandler.pool.get "abc".toList = some { state := .Open, rbuf := [[7]] } ∧
      isStringArray [110, 117, 108, 108] = false ∧
      isStringArray [91, 34, 97, 34, 44, 110, 117, 108, 108, 93] = false ∧
      isStringArray [91, 34, 120, 34, 93, 106, 117, 110, 107] = false ∧
      (xhrSendHandler jsonDecode sampleHandler
          (sampleRequest "POST" "/echo/0/abc/xhr_send" [110, 117, 108, 108]) "abc".toList).2
        = [.headerAdd "Content-Type".toList "text/plain; charset=UTF-8".toList, .sid,
            .xhrCors, .noCache, .Decode, .WriteHeader 204] ∧
      (xhrSendHandler jsonDecode sampleHandler
          (sampleRequest "POST" "/echo/0/abc/xhr_send"
            [91, 34, 97, 34, 44, 110, 117, 108, 108, 93]) "abc".toList).2
        = [.headerAdd "Content-Type".toList "text/plain; charset=UTF-8".toList, .sid,
            .xhrCors, .noCache, .Decode, .WriteHeader 204] ∧
      (xhrSendHandler jsonDecode sampleHandler
          (sampleRequest "POST" "/echo/0/abc/xhr_send"
            [91, 34, 97, 34, 44, 110, 117, 108, 108, 93]) "abc".toList).1.pool.get
          "abc".toList = some { state := .Open, rbuf := [[7], [97], []] } ∧
      (xhrSendHandler jsonDecode sampleHandler
          (sampleRequest "POST" "/echo/0/abc/xhr_send"
            [91, 34, 120, 34, 93, 106, 117, 110, 107]) "abc".toList).2
        = [.headerAdd "Content-Type".toList "text/plain; charset=UTF-8".toList, .sid,
            .xhrCors, .noCache, .Decode, .WriteHeader 204] ∧
      (xhrSendHandler jsonDecode sampleHandler
          (sampleRequest "POST" "/echo/0/abc/xhr_send"
            [91, 34, 120, 34, 93, 106, 117, 110, 107]) "abc".toList).1.pool.get
          "abc".toList = some { state := .Open, rbuf := [[7], [120]] } := by
  decide

/-- Claim C2, amended: an `xhr_send` request for a session that the pool holds, on whose
body `Decode` returns an error, is answered through `logWriteErr`, with the message
`Payload expected.` for `io.EOF` and `Broken JSON encoding.` for any other error; the
handler and with it the session and its inbound buffer are unchanged, and no
`WriteHeader` call (so no 204) is made.  `Decode` returns `io.EOF` exactly on the bodies
that hold nothing but blanks (the empty body among them), and it returns no error on a
well-formed JSON array of strings. -/
theorem xhrSend_rejects_bad_body {H C : Type}
    (decode : Bytes → Except DecodeError (List Str)) (h : handler H C) (r : Request)
    (sessid : Str) (s : session) (e : DecodeError) (hs : h.pool.get sessid = some s)
    (hd : decode r.Body = .error e) :
    (xhrSendHandler decode h r sessid).1 = h ∧
      (xhrSendHandler decode h r sessid).1.pool.get sessid = some s ∧
      (xhrSendHandler decode h r sessid).2
        = [.headerAdd "Content-Type".toList "text/plain; charset=UTF-8".toList, .sid,
            .xhrCors, .noCache, .Decode,
            .logWriteErr (match e with
              | .EOF => "Payload expected.".toList
              | .other => "Broken JSON encoding.".toList)] ∧
      (∀ code, Call.WriteHeader code ∉ (xhrSendHandler decode h r sessid).2) ∧
      (∀ body : Bytes, jsonDecode body = .error .EOF ↔ body.all isSpace = true) ∧
      (∀ body : Bytes, isStringArray body = true → ∃ ms, jsonDecode body = .ok ms) := by
  refine ⟨?_, ?_, ?_, ?_, jsonDecode_eof, jsonDecode_stringArray⟩ <;>
    unfold xhrSendHandler <;> cases e <;> simp [hs, hd]

theorem xhrSend_rejects_bad_body_witness :
    sampleHandler.pool.get "abc".toList = some { state := .Open, rbuf := [[7]] } ∧
      jsonDecode (sampleRequest "POST" "/echo/0/abc/xhr_send" []).Body = .error .EOF ∧
      (xhrSendHandler jsonDecode sampleHandler (sampleRequest "POST" "/echo/0/abc/xhr_send" [])
          "abc".toList).2
        = [.headerAdd "Content-Type".toList "text/plain; charset=UTF-8".toList, .sid,
            .xhrCors, .noCache, .Decode, .logWriteErr "Payload expected.".toList] :=
  ⟨by decide, rfl,
    (xhrSend_rejects_bad_body jsonDecode sampleHandler
      (sampleRequest "POST" "/echo/0/abc/xhr_send" []) "abc".toList
      { state := .Open, rbuf := [[7]] } .EOF (by decide) rfl).2.2.1⟩

/-- Claim C3: an `xhr_send` request for a session id that the pool does not hold is
answered with `http.NotFound` whatever the body and whatever `Decode` would make of it:
the body is never decoded, the handler is unchanged, so no session is created and no
inbound buffer is appended to. -/
theorem xhrSend_unknown_session {H C : Type} (h : handler H C) (sessid : Str)
    (hs : h.pool.get sessid = none) :
    ∀ (decode : Bytes → Except DecodeError (List Str)) (r : Request),
      xhrSendHandler decode h r sessid
          = (h, [.headerAdd "Content-Type".toList "text/plain; charset=UTF-8".toList, .sid,
              .xhrCors, .noCache, .NotFound]) ∧
        (xhrSendHandler decode h r sessid).1.pool.get sessid = none ∧
        Call.Decode ∉ (xhrSendHandler decode h r sessid).2 := by
  intro decode r
  unfold xhrSendHandler
  simp [hs]

theorem xhrSend_unknown_session_witness :
    sampleHandler.pool.get "zzz".toList = none ∧
      xhrSendHandler sampleDecode sampleHandler (sampleRequest "POST" "/echo/0/zzz/xhr_send" [1])
          "zzz".toList
        = (sampleHandler,
            [.headerAdd "Content-Type".toList "text/plain; charset=UTF-8".toList, .sid,
              .xhrCors, .noCache, .NotFound]) :=
  ⟨by decide,
    (xhrSend_unknown_session sampleHandler "zzz".toList (by decide) sampleDecode
      (sampleRequest "POST" "/echo/0/zzz/xhr_send" [1])).1⟩

/-- Claim C4: for the polling and for the streaming strategy, `write(w, m)` is one
`Write` call on `w`, with argument `m` followed by the single byte `0x0A` (length
`len(m) + 1`), and returns the `(n, err)` of that call; both strategies report the
content type `application/javascript; charset=UTF-8`. -/
theorem write_is_one_framed_write (p : xhrPollingProtocol) (q : xhrStreamingProtocol)
    (w : Writer) (m : Bytes) :
    p.write w m = w.Write (m ++ [10]) ∧
      q.write w m = w.Write (m ++ [10]) ∧
      (p.write w m).1.written = w.written ++ [m ++ [10]] ∧
      (q.write w m).1.written = w.written ++ [m ++ [10]] ∧
      (p.write w m).2 = w.respond w.written (m ++ [10]) ∧
      (q.write w m).2 = w.respond w.written (m ++ [10]) ∧
      (m ++ [10]).length = m.length + 1 ∧
      p.contentType = "application/javascript; charset=UTF-8".toList ∧
      q.contentType = "application/javascript; charset=UTF-8".toList := by
  refine ⟨rfl, rfl, rfl, rfl, rfl, rfl, ?_, rfl, rfl⟩
  simp

/-- Claim C5: after `init` the prelude is 2048 bytes `0x68` followed by one byte `0x0A`,
2049 bytes in all, and `writePrelude(w)` is one `Write` call on `w` with exactly these
bytes, returning the error of that call. -/
theorem prelude_is_2048_h_and_newline :
    prelude = List.replicate 2048 104 ++ [10] ∧
      prelude.length = 2049 ∧
      ∀ (q : xhrStreamingProtocol) (w : Writer),
        (q.writePrelude w).1.written = w.written ++ [prelude] ∧
          (q.writePrelude w).1 = (w.Write prelude).1 ∧
          (q.writePrelude w).2 = (w.respond w.written prelude).2 := by
  refine ⟨prelude_eq, ?_, fun q w => ⟨rfl, rfl, rfl⟩⟩
  rw [prelude_eq, List.length_append, List.length_replicate]
  rfl

/-- Claim C7: `NewHandler` panics, with the message `prefix must not end with a slash`,
exactly when the prefix is non-empty and ends in `/`; for every other prefix, the empty
one included, it returns the handler built by `newHandler`. -/
theorem NewHandler_panics_iff {H C : Type} (pfx : Str) (hfunc : H) (c : C) :
    (NewHandler pfx hfunc c = .error "prefix must not end with a slash".toList
        ↔ pfx ≠ [] ∧ pfx.getLast? = some '/') ∧
      (NewHandler pfx hfunc c = .ok (newHandler pfx hfunc c)
        ↔ ¬ (pfx ≠ [] ∧ pfx.getLast? = some '/')) ∧
      NewHandler [] hfunc c = .ok (newHandler [] hfunc c) := by
  have key : (pfx.length > 0 ∧ pfx.getD (pfx.length - 1) ' ' = '/')
      ↔ (pfx ≠ [] ∧ pfx.getLast? = some '/') := by
    constructor
    · rintro ⟨h1, h2⟩
      have hne : pfx ≠ [] := List.length_pos.mp h1
      exact ⟨hne, by rw [getD_last pfx ' ' hne, h2]⟩
    · rintro ⟨h1, h2⟩
      rw [getD_last pfx ' ' h1] at h2
      exact ⟨List.length_pos.mpr h1, Option.some.inj h2⟩
  refine ⟨?_, ?_, ?_⟩
  · rw [← key]
    unfold NewHandler
    split <;> simp_all
  · rw [← key]
    unfold NewHandler
    split <;> simp_all
  · simp [NewHandler]

/-- Claim C6, first reading refuted: a path `/p/s/t` whose segments are non-empty and
free of `/`, with `t` a transport name, need not be recognised; `/a.b/s/xhr` is not. -/
theorem sessionUrl_dot_segment_rejected :
    "a.b".toList ≠ [] ∧ '/' ∉ "a.b".toList ∧ "s".toList ≠ [] ∧ '/' ∉ "s".toList ∧
      "xhr".toList ∈ transportNames ∧
      reSessionUrl.MatchString (sessionPath "a.b".toList "s".toList "xhr".toList) = false := by
  decide

/-- Claim C6, amended: a path `/p/s/t` (after the prefix) in which `p` and `s` are
non-empty and consist of ASCII letters, digits, `_`, `-` and blanks only, and `t` is one
of the eight transport names, is recognised by `reSessionUrl`, with submatch 1 equal to
`s` and submatch 2 equal to `t`, and `ServeHTTP` runs its GET and POST switches on this
`s` and `t`; a path `/p1/s1/t1` with `p1` and `s1` free of `/` is recognised only if
it has this form, and no path whose last segment is not one of the eight names is
recognised. -/
theorem sessionUrl_recognised (p s t : Str) (hp : isSegment p) (hs : isSegment s)
    (ht : t ∈ transportNames) :
    reSessionUrl.MatchString (sessionPath p s t) = true ∧
      submatch (reSessionUrl.FindStringSubmatch (sessionPath p s t)) 1 = s ∧
      submatch (reSessionUrl.FindStringSubmatch (sessionPath p s t)) 2 = t ∧
      (∀ (H C : Type) (decode : Bytes → Except DecodeError (List Str)) (h : handler H C)
        (r : Request), r.Path = h.pfx ++ sessionPath p s t →
          (r.Method = "GET".toList → h.ServeHTTP decode r = some (h, getSwitch s t)) ∧
          (r.Method = "POST".toList →
            h.ServeHTTP decode r = some (postSwitch decode h r s t))) ∧
      (∀ p1 s1 t1 : Str, '/' ∉ p1 → '/' ∉ s1 →
        reSessionUrl.MatchString (sessionPath p1 s1 t1) = true →
          isSegment p1 ∧ isSegment s1 ∧ t1 ∈ transportNames) ∧
      (∀ u v : Str, '/' ∉ v → v ∉ transportNames →
        reSessionUrl.MatchString (u ++ '/' :: v) = false) := by
  refine ⟨session_match p s t hp hs ht, ?_, ?_, ?_, session_only_segments, ?_⟩
  · rw [session_submatch p s t hp hs ht]
    rfl
  · rw [session_submatch p s t hp hs ht]
    rfl
  · intro H C decode h r hpath
    exact ⟨fun hm => serve_get_session decode h r p s t hm hpath hp hs ht,
      fun hm => serve_post_session decode h r p s t hm hpath hp hs ht⟩
  · intro u v hv hnot
    exact Bool.eq_false_iff.mpr (fun hm => hnot (session_last_segment u v hv hm))

theorem sessionUrl_recognised_witness :
    isSegment "000".toList ∧ isSegment "abc".toList ∧ "xhr_send".toList ∈ transportNames ∧
      reSessionUrl.MatchString (sessionPath "000".toList "abc".toList "xhr_send".toList)
        = true :=
  ⟨by decide, by decide, by decide,
    (sessionUrl_recognised "000".toList "abc".toList "xhr_send".toList (by decide) (by decide)
      (by decide)).1⟩

/-- Claim C8: for a POST request whose path after the prefix is the session URL
`/p/s/t`, `ServeHTTP` runs, for `t = xhr`, `xhrCors` and `legacyHandler` with session id
`s` and the polling strategy; for `t = xhr_streaming`, `xhrCors` and `legacyHandler`
with session id `s` and the streaming strategy; for `t = xhr_send`, `xhrCors` and
`xhrSendHandler` with session id `s`, without any call of `legacyHandler`.  The polling
strategy has no prelude writer (`streaming()` is `nil`); the streaming strategy has one,
and it writes the prelude. -/
theorem post_session_dispatch {H C : Type} (decode : Bytes → Except DecodeError (List Str))
    (h : handler H C) (r : Request) (p s : Str) (hm : r.Method = "POST".toList)
    (hp : isSegment p) (hs : isSegment s) :
    (r.Path = h.pfx ++ sessionPath p s "xhr".toList →
        h.ServeHTTP decode r
          = some (h, [.xhrCors, .legacyHandler s (.xhrPollingProtocol {})])) ∧
      (r.Path = h.pfx ++ sessionPath p s "xhr_streaming".toList →
        h.ServeHTTP decode r
          = some (h, [.xhrCors,
              .legacyHandler s (.xhrStreamingProtocol { xhrPollingProtocol := {} })])) ∧
      (r.Path = h.pfx ++ sessionPath p s "xhr_send".toList →
        h.ServeHTTP decode r
            = some ((xhrSendHandler decode h r s).1,
                .xhrCors :: (xhrSendHandler decode h r s).2) ∧
          ∀ (id : Str) (pr : legacyProtocol),
            Call.legacyHandler id pr ∉ Call.xhrCors :: (xhrSendHandler decode h r s).2) ∧
      (∀ q : xhrPollingProtocol, q.streaming = none) ∧
      (∀ (q : xhrStreamingProtocol) (w : Writer),
        ∃ pw, q.streaming = some pw ∧
          (pw.writePrelude w).1.written = w.written ++ [prelude]) := by
  refine ⟨?_, ?_, ?_, fun _ => rfl, fun q w => ⟨_, rfl, rfl⟩⟩
  · intro hpath
    rw [serve_post_session decode h r p s _ hm hpath hp hs (by decide)]
    rfl
  · intro hpath
    rw [serve_post_session decode h r p s _ hm hpath hp hs (by decide)]
    rfl
  · intro hpath
    refine ⟨?_, ?_⟩
    · rw [serve_post_session decode h r p s _ hm hpath hp hs (by decide)]
      rfl
    · intro id pr hmem
      rcases List.mem_cons.mp hmem with h0 | h0
      · cases h0
      · exact xhrSendHandler_no_legacy decode h r s id pr h0

theorem post_session_dispatch_witness :
    (sampleRequest "POST" "/echo/000/abc/xhr" []).Method = "POST".toList ∧
      isSegment "000".toList ∧ isSegment "abc".toList ∧
      sampleHandler.ServeHTTP sampleDecode (sampleRequest "POST" "/echo/000/abc/xhr" [])
        = some (sampleHandler,
            [.xhrCors, .legacyHandler "abc".toList (.xhrPollingProtocol {})]) :=
  ⟨rfl, by decide, by decide,
    (post_session_dispatch sampleDecode sampleHandler
      (sampleRequest "POST" "/echo/000/abc/xhr" []) "000".toList "abc".toList rfl (by decide)
      (by decide)).1 (by decide)⟩

/-- Claim C9, as stated, refuted: with the method DELETE and the path `/a`, which has
fewer bytes than the prefix `/echo`, `ServeHTTP` does not answer not-found; the slice
expression `Path[len(prefix):]` panics before the `switch` is reached. -/
theorem short_path_not_answered :
    (sampleRequest "DELETE" "/a" []).Method ≠ "GET".toList ∧
      (sampleRequest "DELETE" "/a" []).Method ≠ "POST".toList ∧
      (sampleRequest "DELETE" "/a" []).Method ≠ "OPTIONS".toList ∧
      sampleHandler.ServeHTTP sampleDecode (sampleRequest "DELETE" "/a" []) = none ∧
      sampleHandler.ServeHTTP sampleDecode (sampleRequest "DELETE" "/a" [])
        ≠ some (sampleHandler, [.NotFound]) := by
  have hn : sampleHandler.ServeHTTP sampleDecode (sampleRequest "DELETE" "/a" []) = none :=
    serve_short_path sampleDecode sampleHandler (sampleRequest "DELETE" "/a" []) (by decide)
  refine ⟨by decide, by decide, by decide, hn, ?_⟩
  rw [hn]
  exact fun h => Option.noConfusion h

/-- Claim C9, amended: for a request whose path after the prefix is the session URL
`/p/s/t`, `ServeHTTP` makes no call at all (no handler, no `http.NotFound`, nothing
written) when the method is GET and `t` is `xhr`, `xhr_send`, `xhr_streaming` or
`jsonp_send`, and when the method is POST and `t` is `eventsource`, `htmlfile` or `jsonp`;
and for a method other than GET, POST and OPTIONS every path that has at least as many
bytes as the prefix is answered with `http.NotFound` and nothing else, while a path with
fewer bytes than the prefix makes the slice expression `Path[len(prefix):]` panic. -/
theorem unpaired_method_transport {H C : Type}
    (decode : Bytes → Except DecodeError (List Str)) (h : handler H C) (r : Request)
    (p s t : Str) (hp : isSegment p) (hs : isSegment s) :
    (r.Method = "GET".toList →
        t ∈ ["xhr".toList, "xhr_send".toList, "xhr_streaming".toList, "jsonp_send".toList] →
        r.Path = h.pfx ++ sessionPath p s t → h.ServeHTTP decode r = some (h, [])) ∧
      (r.Method = "POST".toList →
        t ∈ ["eventsource".toList, "htmlfile".toList, "jsonp".toList] →
        r.Path = h.pfx ++ sessionPath p s t → h.ServeHTTP decode r = some (h, [])) ∧
      (r.Method ≠ "GET".toList → r.Method ≠ "POST".toList → r.Method ≠ "OPTIONS".toList →
        len h.pfx ≤ len r.Path → h.ServeHTTP decode r = some (h, [.NotFound])) ∧
      (len r.Path < len h.pfx → h.ServeHTTP decode r = none) := by
  refine ⟨?_, ?_, ?_, ?_⟩
  · intro hm ht hpath
    simp only [List.mem_cons, List.mem_singleton, List.not_mem_nil, or_false] at ht
    rcases ht with h0 | h0 | h0 | h0 <;> subst h0 <;>
      rw [serve_get_session decode h r p s _ hm hpath hp hs (by decide)] <;> rfl
  · intro hm ht hpath
    simp only [List.mem_cons, List.mem_singleton, List.not_mem_nil, or_false] at ht
    rcases ht with h0 | h0 | h0 <;> subst h0 <;>
      rw [serve_post_session decode h r p s _ hm hpath hp hs (by decide)] <;> rfl
  · intro h1 h2 h3 hlen
    exact serve_other_method decode h r hlen h1 h2 h3
  · intro hlen
    exact serve_short_path decode h r hlen

theorem unpaired_method_transport_witness :
    isSegment "000".toList ∧ isSegment "abc".toList ∧
      sampleHandler.ServeHTTP sampleDecode (sampleRequest "GET" "/echo/000/abc/xhr_send" [1])
        = some (sampleHandler, []) :=
  ⟨by decide, by decide,
    (unpaired_method_transport sampleDecode sampleHandler
      (sampleRequest "GET" "/echo/000/abc/xhr_send" [1]) "000".toList "abc".toList
      "xhr_send".toList (by decide) (by decide)).1 rfl (by decide) (by decide)⟩

/-- Claim C10: the five route patterns are pairwise disjoint (no path matches two of
them), so `ServeHTTP` with the cases of its `switch` listed in any other order gives the
same result for every request; `/websocket` matches the raw websocket pattern and not
the session pattern, and a path that matches the session pattern matches none of the
raw websocket, info, iframe and greeting patterns. -/
theorem routes_disjoint_order_free {H C : Type}
    (decode : Bytes → Except DecodeError (List Str)) (h : handler H C) (r : Request)
    (cs : List Route) (hcs : cs.Perm serveCases) :
    [reGreeting, reInfo, reIframe, reRawWebsocket, reSessionUrl].Pairwise
        (fun a b => ∀ path, ¬ (a.MatchString path = true ∧ b.MatchString path = true)) ∧
      ServeHTTPWith decode cs h r = h.ServeHTTP decode r ∧
      reRawWebsocket.MatchString "/websocket".toList = true ∧
      reSessionUrl.MatchString "/websocket".toList = false ∧
      (∀ path, reSessionUrl.MatchString path = true →
        reRawWebsocket.MatchString path = false ∧ reInfo.MatchString path = false ∧
          reIframe.MatchString path = false ∧ reGreeting.MatchString path = false) := by
  refine ⟨?_, switch_perm decode cs hcs h r, by decide, by decide, ?_⟩
  · refine .cons ?_ (.cons ?_ (.cons ?_ (.cons ?_ (.cons ?_ .nil))))
    · intro b hb
      simp only [List.mem_cons, List.mem_singleton, List.not_mem_nil, or_false] at hb
      rcases hb with h0 | h0 | h0 | h0 <;> subst h0 <;> rintro path ⟨h1, h2⟩
      · exact disj_greeting_info path h1 h2
      · exact disj_greeting_iframe path h1 h2
      · exact disj_greeting_rawWebsocket path h1 h2
      · exact disj_session_greeting path h2 h1
    · intro b hb
      simp only [List.mem_cons, List.mem_singleton, List.not_mem_nil, or_false] at hb
      rcases hb with h0 | h0 | h0 <;> subst h0 <;> rintro path ⟨h1, h2⟩
      · exact disj_info_iframe path h1 h2
      · exact disj_info_rawWebsocket path h1 h2
      · exact disj_session_info path h2 h1
    · intro b hb
      simp only [List.mem_cons, List.mem_singleton, List.not_mem_nil, or_false] at hb
      rcases hb with h0 | h0 <;> subst h0 <;> rintro path ⟨h1, h2⟩
      · exact disj_rawWebsocket_iframe path h2 h1
      · exact disj_session_iframe path h2 h1
    · intro b hb
      simp only [List.mem_singleton] at hb
      subst hb
      rintro path ⟨h1, h2⟩
      exact disj_session_rawWebsocket path h2 h1
    · intro b hb
      cases hb
  · intro path hm
    exact ⟨Bool.eq_false_iff.mpr (fun h2 => disj_session_rawWebsocket path hm h2),
      Bool.eq_false_iff.mpr (fun h2 => disj_session_info path hm h2),
      Bool.eq_false_iff.mpr (fun h2 => disj_session_iframe path hm h2),
      Bool.eq_false_iff.mpr (fun h2 => disj_session_greeting path hm h2)⟩

theorem routes_disjoint_order_free_witness :
    serveCases.reverse.Perm serveCases ∧
      ServeHTTPWith sampleDecode serveCases.reverse sampleHandler
          (sampleRequest "GET" "/echo/websocket" [])
        = sampleHandler.ServeHTTP sampleDecode (sampleRequest "GET" "/echo/websocket" []) :=
  ⟨List.reverse_perm serveCases,
    (routes_disjoint_order_free sampleDecode sampleHandler
      (sampleRequest "GET" "/echo/websocket" []) serveCases.reverse
      (List.reverse_perm serveCases)).2.1⟩

end Gosock
